import Mathlib

/-!
# Sender provenance verification pipeline (nyms-verifier)

A shallow embedding of `mail.go` and `main.go`, followed by theorems about it.

Conventions of the embedding.

* A Go `string` is the list of its code points (`GoString`).  The source only ever
  splits on the one-byte separators `@`, `;` and `=`, and on valid UTF-8 splitting at
  such a byte and splitting at the corresponding code point coincide.
* A Go `error` is a value carrying its message; the nil error is `none`.
* Calls that leave the process (DNS, SMTP, the report generator, the logger, standard
  output) are answered by an environment `Env` of functions and recorded, in program
  order, in a trace of `Event`s.
* A run-time panic ends the run: `Run.result` is then `none`.
-/

set_option linter.dupNamespace false

namespace NymsVerifier

/-! ## Strings, errors, maps -/

/-- A Go string, as the list of its code points. -/
abbrev GoString := List Char

/-- A Go byte slice. -/
abbrev Bytes := List UInt8

/-- The conversion `[]byte(s)`: the UTF-8 encoding of the string. -/
def toBytes (s : GoString) : Bytes :=
  s.flatMap String.utf8EncodeChar

/-- A non-nil Go `error`; `Error` is what its `Error()` method (and `%v`) prints. -/
structure GoError where
  Error : GoString
  deriving DecidableEq, Repr

/-- The call `strings.Split(s, sep)` for a separator of one character: the pieces of `s`
between consecutive occurrences of `sep` (always at least one piece). -/
def Split (sep : Char) : GoString → List GoString
  | [] => [[]]
  | c :: cs =>
    if c = sep then [] :: Split sep cs
    else
      match Split sep cs with
      | [] => [[c]]
      | p :: ps => (c :: p) :: ps

/-- The predicate `unicode.IsSpace`: the code points with the Unicode White_Space property. -/
def IsSpace (r : Char) : Bool :=
  let n := r.toNat
  if n ≤ 0xFF then
    n == 0x09 || n == 0x0A || n == 0x0B || n == 0x0C || n == 0x0D || n == 0x20
      || n == 0x85 || n == 0xA0
  else
    n == 0x1680 || (0x2000 ≤ n && n ≤ 0x200A) || n == 0x2028 || n == 0x2029
      || n == 0x202F || n == 0x205F || n == 0x3000

/-- The call `strings.TrimSpace(s)`: `s` without its leading and trailing white space. -/
def TrimSpace (s : GoString) : GoString :=
  (s.dropWhile IsSpace).rdropWhile IsSpace

/-- A Go `map[string]string`, as its entries with pairwise distinct keys. -/
abbrev GoMap := List (GoString × GoString)

/-- The assignment `m[k] = v`. -/
def GoMap.set (m : GoMap) (k v : GoString) : GoMap :=
  (k, v) :: m.filter (fun e => e.1 != k)

/-- The two-valued lookup `v, ok := m[k]`. -/
def GoMap.get? (m : GoMap) (k : GoString) : Option GoString :=
  m.lookup k

/-- The index expression `m[k]`: the empty string when `k` is absent. -/
def GoMap.index (m : GoMap) (k : GoString) : GoString :=
  (m.get? k).getD []

/-! ## Addresses and domain extraction -/

/-- The fields of `mail.Address`. -/
structure Address where
  Name : GoString
  Address : GoString
  deriving DecidableEq, Repr

/-- Source: `getDomain` (mail.go). -/
def getDomain (address : Address) : GoString × Option GoError :=
  let parts := Split '@' address.Address
  if parts.length < 2 then
    ([], some ⟨"no @ character in address '".toList ++ address.Address ++ "'".toList⟩)
  else if parts.length > 2 then
    ([], some ⟨"too many @ characters in address '".toList ++ address.Address ++ "'".toList⟩)
  else
    (parts.getD 1 [], none)

/-! ## DKIM signature parameters -/

/-- Source: `parseDKIM` (mail.go).  The `for ... range` loop over the pieces is the left
fold; its body is the function folded. -/
def parseDKIM (dkim : GoString) : GoMap :=
  (Split ';' dkim).foldl
    (fun dm pair =>
      let kv := Split '=' (TrimSpace pair)
      if kv.length = 2 then dm.set (kv.getD 0 []) (kv.getD 1 []) else dm)
    []

/-! ## Data of the collaborators -/

/-- The fields of `net.MX`. -/
structure MX where
  Host : GoString
  Pref : Nat
  deriving DecidableEq, Repr

/-- An `x509.Certificate`, by its encoding. -/
structure Certificate where
  Raw : Bytes
  deriving DecidableEq, Repr

/-- The part of `tls.ConnectionState` the pipeline reads. -/
structure ConnectionState where
  PeerCertificates : List Certificate
  deriving DecidableEq, Repr

/-- The one field of `tls.Config` that `connectTo` sets. -/
structure TLSConfig where
  ServerName : GoString
  deriving DecidableEq, Repr

/-- Modelled from the spec: the type `smtp.Client` of the repository's own `smtp` package,
which is not among the sources.  `conn` names the underlying connection; `TLSState` is
the field `processMail` reads, with an empty certificate chain as long as no TLS upgrade
took place ("empty if no STARTTLS upgrade occurred"). -/
structure Client where
  conn : Nat
  TLSState : ConnectionState
  deriving DecidableEq, Repr

/-- Modelled from the spec: what a successful `client.StartTLS` of the repository's own
`smtp` package, which is not among the sources, does to the client: it records the
negotiated connection state, so that the peer's certificate chain is captured "if and only
if TLS was negotiated". -/
def Client.withTLS (client : Client) (state : ConnectionState) : Client :=
  { client with TLSState := state }

/-- A resource record of a DNS answer section: `TXT` stands for the dynamic type
`*dns.TXT` with its field `Txt`, `other` for every other record type. -/
inductive RR where
  | TXT (Txt : List GoString)
  | other (Rrtype : Nat)
  deriving DecidableEq, Repr

/-- The fields of `dns.Question`. -/
structure Question where
  Name : GoString
  Qtype : Nat
  Qclass : Nat
  deriving DecidableEq, Repr

/-- The fields of `dns.Msg` that the source sets or reads (the message id, which
`SetQuestion` draws at random, is left out). -/
structure Msg where
  RecursionDesired : Bool
  Rcode : Int
  Question : List Question
  Answer : List RR
  deriving DecidableEq, Repr

/-- The constant `dns.RcodeSuccess`. -/
def RcodeSuccess : Int := 0

/-- The constant `dns.TypeTXT`. -/
def TypeTXT : Nat := 16

/-- The constant `dns.ClassINET`. -/
def ClassINET : Nat := 1

/-- The fields of `dns.ClientConfig` that `getDNSServerAddress` reads. -/
structure ClientConfig where
  Servers : List GoString
  Port : GoString
  deriving DecidableEq, Repr

/-- The header of a parsed `mail.Message`: canonical header names with their values. -/
structure Message where
  Header : List (GoString × List GoString)
  deriving DecidableEq, Repr

/-- The call `msg.Header.Get(key)` for a key in canonical form (both keys the source asks
for are): the first value stored under `key`, or the empty string. -/
def Message.HeaderGet (msg : Message) (key : GoString) : GoString :=
  match msg.Header.lookup key with
  | some (v :: _) => v
  | _ => []

/-- The fields of `Config` (config.go) of plain type; `KeySource`, which only the report
generator uses, is left out. -/
structure Config where
  VerifyEmail : GoString
  LogPath : GoString
  DKIMPrivatePEM : Bytes
  DKIMDomain : GoString
  DKIMSelector : GoString
  deriving DecidableEq, Repr

/-- Modelled from the spec: the type `verifyData`, declared in a file of the repository
that is not among the sources; these are the fields `processMail` assigns (the
"VerificationEvidence" of the spec). -/
structure verifyData where
  sender : Address
  rawMail : Bytes
  mxlist : List MX
  dkimkey : GoString
  certs : List Certificate
  deriving DecidableEq, Repr

/-! ## Effects -/

/-- What the pipeline does to the outside world, one constructor per call. -/
inductive Event where
  | LookupMX (domain : GoString)
  | ClientConfigFromFile (path : GoString)
  | Exchange (m : Msg) (server : GoString)
  | Warning (msg : GoString)
  | Dial (addr : GoString)
  | Extension (conn : Nat) (ext : GoString)
  | StartTLS (conn : Nat) (config : TLSConfig)
  | Close (conn : Nat)
  | Quit (conn : Nat)
  | Mail (conn : Nat) (sender : GoString)
  | Rcpt (conn : Nat) (rcpt : GoString)
  | Data (conn : Nat)
  | Write (conn : Nat) (mail : Bytes)
  | CloseData (conn : Nat)
  | createResponse (config : Config) (data : verifyData)
  | Println (s : GoString)
  deriving DecidableEq, Repr

/-- The answers of the collaborators.  Each field stands for the call of the same name
and gives its result as a function of its arguments. -/
structure Env where
  /-- The resolver's answer to the MX query that `net.LookupMX` sends for a domain: an
  error, or the MX records of the answer section in the resolver's order. -/
  answerMX : GoString → Except GoError (List MX)
  /-- The error with which `net.LookupMX` reports an answer that holds no MX record
  ("no such host"). -/
  errNoSuchHost : GoString → GoError
  /-- The call `mail.ReadMessage` on a reader over the given bytes. -/
  ReadMessage : Bytes → Except GoError Message
  /-- The call `dns.ClientConfigFromFile`. -/
  ClientConfigFromFile : GoString → Except GoError ClientConfig
  /-- The call `dns.Fqdn`, which completes a domain name with a final dot. -/
  Fqdn : GoString → GoString
  /-- The call `dns.Exchange`. -/
  Exchange : Msg → GoString → Except GoError Msg
  /-- The call `smtp.Dial`. -/
  Dial : GoString → Except GoError Client
  /-- The first result of `client.Extension`. -/
  Extension : Client → GoString → Bool
  /-- The call `client.StartTLS`: an error, or the negotiated connection state. -/
  StartTLS : Client → TLSConfig → Except GoError ConnectionState
  /-- The call `c.Mail`. -/
  Mail : Client → GoString → Option GoError
  /-- The call `c.Rcpt`. -/
  Rcpt : Client → GoString → Option GoError
  /-- The error result of `c.Data`. -/
  Data : Client → Option GoError
  /-- The error result of `w.Write` on the data writer of the client. -/
  Write : Client → Bytes → Option GoError
  /-- The call `w.Close` on the data writer of the client. -/
  CloseData : Client → Option GoError
  /-- The report generator `createResponse`. -/
  createResponse : Config → verifyData → Except GoError GoString

/-- A run of a piece of the pipeline: the events it caused, in order, and its return
value, or `none` when it ended in a run-time panic. -/
structure Run (α : Type) where
  trace : List Event
  result : Option α

/-- Returning a value causes no event. -/
def Run.pure {α : Type} (a : α) : Run α :=
  ⟨[], some a⟩

/-- Sequencing: the second part runs only if the first did not panic. -/
def Run.bind {α β : Type} (m : Run α) (f : α → Run β) : Run β :=
  match m.result with
  | none => ⟨m.trace, none⟩
  | some a => ⟨m.trace ++ (f a).trace, (f a).result⟩

instance : Monad Run where
  pure := Run.pure
  bind := Run.bind

/-- One call to the outside world. -/
def emit (e : Event) : Run Unit :=
  ⟨[e], some ()⟩

/-- A run-time panic. -/
def goPanic {α : Type} : Run α :=
  ⟨[], none⟩

/-! ## The pipeline (mail.go) -/

/-- The call `net.LookupMX` of the Go library: the MX records of the resolver's answer, in
the resolver's order.  An answer that holds no MX record is reported as an error, never as
an empty list with a nil error. -/
def LookupMX (env : Env) (domain : GoString) : Except GoError (List MX) :=
  match env.answerMX domain with
  | .error err => .error err
  | .ok [] => .error (env.errNoSuchHost domain)
  | .ok (mx :: mxs) => .ok (mx :: mxs)

/-- Source: `getMXForSender` (mail.go). -/
def getMXForSender (env : Env) (sender : Address) : Run (List MX × Option GoError) :=
  match getDomain sender with
  | (_, some err) =>
    pure ([], some ⟨"could not get domain for sender: ".toList ++ err.Error⟩)
  | (domain, none) => do
    emit (.LookupMX domain)
    match LookupMX env domain with
    | .error err =>
      pure ([], some ⟨"failed to lookup MX for domain (".toList ++ domain ++ "): ".toList
        ++ err.Error⟩)
    | .ok mxs => pure (mxs, none)

/-- Source: `mxToHostname` (mail.go). -/
def mxToHostname (mx : MX) : GoString :=
  let hl := mx.Host.length
  if hl > 0 ∧ mx.Host[hl - 1]? = some '.' then mx.Host.take (hl - 1) else mx.Host

/-- Source: `connectTo` (mail.go).  The client returned after a successful `StartTLS` is
the dialled client with the negotiated connection state (`Client.withTLS`). -/
def connectTo (env : Env) (hostname : GoString) : Run (Option Client × Option GoError) := do
  emit (.Dial (hostname ++ ":25".toList))
  match env.Dial (hostname ++ ":25".toList) with
  | .error err => pure (none, some err)
  | .ok client => do
    emit (.Extension client.conn "STARTTLS".toList)
    if env.Extension client "STARTTLS".toList then do
      let config : TLSConfig := ⟨hostname⟩
      emit (.StartTLS client.conn config)
      match env.StartTLS client config with
      | .error err => do
        emit (.Close client.conn)
        pure (none, some err)
      | .ok state => pure (some (client.withTLS state), none)
    else
      pure (some client, none)

/-- Source: `dialSMTP` (mail.go): the loop over the MX records, by recursion on the list. -/
def dialSMTP (env : Env) : List MX → Run (Option Client)
  | [] => pure none
  | mx :: mxs => do
    let host := mxToHostname mx
    let (client, _) ← connectTo env host
    match client with
    | some c => pure (some c)
    | none => dialSMTP env mxs

/-- Source: `transmitMail` (mail.go). -/
def transmitMail (env : Env) (c : Client) (from_ to_ : GoString) (mail : Bytes) :
    Run (Option GoError) := do
  emit (.Mail c.conn from_)
  match env.Mail c from_ with
  | some err => pure (some err)
  | none => do
    emit (.Rcpt c.conn to_)
    match env.Rcpt c to_ with
    | some err => pure (some err)
    | none => do
      emit (.Data c.conn)
      match env.Data c with
      | some err => pure (some err)
      | none => do
        emit (.Write c.conn mail)
        match env.Write c mail with
        | some err => pure (some err)
        | none => do
          emit (.CloseData c.conn)
          pure (env.CloseData c)

/-- Source: `processDKIMResponse` (mail.go).  The second `Errorf` is given no arguments
for its two `%s`, which print as `%!s(MISSING)`. -/
def processDKIMResponse (selector domain : GoString) (r : Msg) :
    Run (GoString × Option GoError) :=
  if r.Rcode ≠ RcodeSuccess then
    pure ([], some ⟨"lookup response s=".toList ++ selector ++ " d=".toList ++ domain
      ++ ", Rcode is not RcodeSuccess as expected: Rcode=".toList
      ++ (toString r.Rcode).toList⟩)
  else if r.Answer.length = 0 then
    pure ([], some
      ⟨"lookup s=%!s(MISSING) d=%!s(MISSING) response has empty answer section".toList⟩)
  else do
    if r.Answer.length > 1 then
      emit (.Warning ("lookup s=".toList ++ selector ++ " d=".toList ++ domain
        ++ " returned ".toList ++ (toString r.Answer.length).toList
        ++ " answers, expecting 1.  Ignoring extra responses".toList))
    match r.Answer[0]? with
    | some (RR.TXT txt) => pure (txt.foldl (fun result s => result ++ s) [], none)
    | _ =>
      pure ([], some ⟨"answer RR for lookup s=".toList ++ selector ++ " d=".toList ++ domain
        ++ " is not a TXT record".toList⟩)

/-- The call `net.JoinHostPort`. -/
def JoinHostPort (host port : GoString) : GoString :=
  if ':' ∈ host then "[".toList ++ host ++ "]:".toList ++ port
  else host ++ ":".toList ++ port

/-- Source: `getDNSServerAddress` (mail.go).  `conf.Servers[0]` panics when the resolver
file names no server. -/
def getDNSServerAddress (env : Env) : Run (GoString × Option GoError) := do
  emit (.ClientConfigFromFile "/etc/resolv.conf".toList)
  match env.ClientConfigFromFile "/etc/resolv.conf".toList with
  | .error err =>
    pure ([], some ⟨"failed to load DNS config from /etc/resolv.conf: ".toList ++ err.Error⟩)
  | .ok conf =>
    match conf.Servers with
    | [] => goPanic
    | server :: _ => pure (JoinHostPort server conf.Port, none)

/-- Source: `createDKIMQuery` (mail.go); `dns.Fqdn` is the one of the environment. -/
def createDKIMQuery (env : Env) (selector domain : GoString) : Msg :=
  let q := selector ++ "._domainkey.".toList ++ domain
  { RecursionDesired := true, Rcode := 0, Question := [⟨env.Fqdn q, TypeTXT, ClassINET⟩],
    Answer := [] }

/-- Source: `lookupDKIM` (mail.go). -/
def lookupDKIM (env : Env) (selector domain : GoString) : Run (GoString × Option GoError) := do
  let (serv, err) ← getDNSServerAddress env
  match err with
  | some err => pure ([], some err)
  | none => do
    let m := createDKIMQuery env selector domain
    emit (.Exchange m serv)
    match env.Exchange m serv with
    | .error err =>
      pure ([], some ⟨"failed TXT lookup s=".toList ++ selector ++ " d=".toList ++ domain
        ++ ": ".toList ++ err.Error⟩)
    | .ok r => processDKIMResponse selector domain r

/-- Source: `getDKIMParams` (mail.go): the first of the two headers that is present;
`none` is the nil map. -/
def getDKIMParams (msg : Message) : Option GoMap :=
  ["Dkim-Signature".toList, "X-Google-Dkim-Signature".toList].findSome? fun h =>
    let val := msg.HeaderGet h
    if val ≠ [] then some (parseDKIM val) else none

/-- The index expression `params[k]` on a map that may be nil. -/
def indexNil (params : Option GoMap) (k : GoString) : GoString :=
  match params with
  | none => []
  | some m => m.index k

/-- Source: `getMessageDKIMKey` (mail.go). -/
def getMessageDKIMKey (env : Env) (rawMail : Bytes) : Run (GoString × Option GoError) :=
  match env.ReadMessage rawMail with
  | .error err =>
    pure ([], some
      ⟨"Could not extract DKIM selector because mail could not be parsed: ".toList
        ++ err.Error⟩)
  | .ok msg =>
    let params := getDKIMParams msg
    if params = none ∨ indexNil params "s".toList = [] ∨ indexNil params "d".toList = [] then
      pure ([], none)
    else
      let selector := indexNil params "s".toList
      let domain := indexNil params "d".toList
      lookupDKIM env selector domain

/-- Source: `processMail` (mail.go); `debugArg` is the value of the `-d` flag.  In the
"Failed to connect" branch the source binds `d` to the second result of `getDomain`, the
error, and prints it with `%s`. -/
def processMail (env : Env) (debugArg : Bool) (rawMail : Bytes) (sender : Address)
    (config : Config) : Run (Option GoError) := do
  let (mxs, err) ← getMXForSender env sender
  match err with
  | some err => pure (some err)
  | none => do
    let (dkim, err) ← getMessageDKIMKey env rawMail
    if err ≠ none then
      emit (.Warning ("DKIM: ".toList ++ (err.map GoError.Error).getD []))
    let client ← dialSMTP env mxs
    match client with
    | none =>
      let d := (getDomain sender).2
      pure (some ⟨"Failed to connect to any MX for domain '".toList
        ++ (match d with
            | none => "%!s(<nil>)".toList
            | some e => e.Error)
        ++ "'".toList⟩)
    | some client => do
      let data : verifyData :=
        { sender := sender, rawMail := rawMail, mxlist := mxs, dkimkey := dkim,
          certs := client.TLSState.PeerCertificates }
      emit (.createResponse config data)
      match env.createResponse config data with
      | .error err => do
        emit (.Quit client.conn)
        pure (some err)
      | .ok response =>
        if debugArg then do
          emit (.Quit client.conn)
          emit (.Println response)
          pure none
        else do
          let err ← transmitMail env client config.VerifyEmail sender.Address (toBytes response)
          emit (.Quit client.conn)
          pure err

/-! ## The sender address (main.go) -/

/-- The end of the process in `fatal`: the message it logs; the exit status is always 0. -/
structure FatalExit where
  message : GoString
  deriving DecidableEq, Repr

/-- Source: `fatal` (main.go). -/
def fatal {α : Type} (message : GoString) : Except FatalExit α :=
  .error ⟨message⟩

/-- Source: `getSenderAddress` (main.go).  `senderArg` is the value of the `-s` flag,
`Getenv` is `os.Getenv` and `ParseAddress` is `mail.ParseAddress`.  As in the source, the
`sender` bound inside the first `if` is a new variable whose scope ends with that block. -/
def getSenderAddress (ParseAddress : GoString → Except GoError Address)
    (Getenv : GoString → GoString) (senderArg : GoString) : Except FatalExit Address := do
  let sender := senderArg
  if sender = [] then
    let sender := Getenv "SENDER".toList
    if sender = [] then
      fatal ("No sender address specified with -s argument or $SENDER environment "
        ++ "variable").toList
  match ParseAddress sender with
  | .error err =>
    fatal ("Failed to parse sender address '".toList ++ sender ++ "': ".toList ++ err.Error)
  | .ok addr => pure addr

/-! ## Observations on traces -/

/-- The event is a `client.Quit`. -/
def Event.isQuit : Event → Bool
  | .Quit _ => true
  | _ => false

/-- The event is one of the mail-transaction commands issued by `transmitMail`. -/
def Event.isTransaction : Event → Bool
  | .Mail _ _ => true
  | .Rcpt _ _ => true
  | .Data _ => true
  | .Write _ _ => true
  | .CloseData _ => true
  | _ => false

/-- The event is a call of the report generator. -/
def Event.isReport : Event → Bool
  | .createResponse _ _ => true
  | _ => false

/-- The addresses dialled in a trace, in order. -/
def dialled (trace : List Event) : List GoString :=
  trace.filterMap fun e =>
    match e with
    | .Dial addr => some addr
    | _ => none

/-- The warning that `processMail` logs for the error result of the DKIM lookup: one
event when the error is non-nil, none otherwise. -/
def dkimWarning : Option GoError → List Event
  | some e => [.Warning ("DKIM: ".toList ++ e.Error)]
  | none => []

/-- The call `connectTo env hostname` yields no session. -/
def connectFails (env : Env) (hostname : GoString) : Bool :=
  match (connectTo env hostname).result with
  | some (some _, _) => false
  | _ => true

/-- The session that `connectTo env hostname` yields, if any. -/
def connectSession (env : Env) (hostname : GoString) : Option Client :=
  match (connectTo env hostname).result with
  | some (client, _) => client
  | none => none

/-! ## Concrete environments -/

/-- An environment in which every collaborator reports an error. -/
def deadEnv : Env where
  answerMX := fun _ => .error ⟨"i/o timeout".toList⟩
  errNoSuchHost := fun _ => ⟨"no such host".toList⟩
  Fqdn := fun s => s ++ ".".toList
  ReadMessage := fun _ => .error ⟨"EOF".toList⟩
  ClientConfigFromFile := fun _ => .error ⟨"no such file".toList⟩
  Exchange := fun _ _ => .error ⟨"i/o timeout".toList⟩
  Dial := fun _ => .error ⟨"connection refused".toList⟩
  Extension := fun _ _ => false
  StartTLS := fun _ _ => .error ⟨"handshake failure".toList⟩
  Mail := fun _ _ => some ⟨"closed".toList⟩
  Rcpt := fun _ _ => some ⟨"closed".toList⟩
  Data := fun _ => some ⟨"closed".toList⟩
  Write := fun _ _ => some ⟨"closed".toList⟩
  CloseData := fun _ => some ⟨"closed".toList⟩
  createResponse := fun _ _ => .error ⟨"no key".toList⟩

/-- The sender `alice@example.com`. -/
def alice : Address :=
  ⟨"Alice".toList, "alice@example.com".toList⟩

/-- Four MX records for `example.com`, with the trailing dot of DNS names. -/
def exampleMXs : List MX :=
  [⟨"mx1.example.com.".toList, 10⟩, ⟨"mx2.example.com.".toList, 20⟩,
    ⟨"mx3.example.com.".toList, 30⟩, ⟨"mx4.example.com.".toList, 40⟩]

/-- The certificate presented by `mx4.example.com`. -/
def exampleCert : Certificate :=
  ⟨[0x30, 0x82]⟩

/-- An environment in which `example.com` has the four exchangers of `exampleMXs`, the
answer for `nomx.example` holds no MX record, the first three exchangers refuse
connections and the fourth accepts, advertises STARTTLS and completes the handshake;
`tlsfail.example.com` accepts and advertises STARTTLS but fails the
handshake; `plain.example.com` accepts and does not advertise STARTTLS; the message does
not parse; the report generator and the mail transaction succeed. -/
def exampleEnv : Env where
  answerMX := fun domain =>
    if domain = "example.com".toList then .ok exampleMXs
    else if domain = "nomx.example".toList then .ok []
    else .error ⟨"server misbehaving".toList⟩
  errNoSuchHost := fun domain => ⟨"lookup ".toList ++ domain ++ ": no such host".toList⟩
  Fqdn := fun s => s ++ ".".toList
  ReadMessage := fun _ => .error ⟨"malformed MIME header line".toList⟩
  ClientConfigFromFile := fun _ => .ok ⟨["192.0.2.53".toList], "53".toList⟩
  Exchange := fun _ _ => .error ⟨"i/o timeout".toList⟩
  Dial := fun addr =>
    if addr = "mx4.example.com:25".toList then .ok ⟨4, ⟨[]⟩⟩
    else if addr = "tlsfail.example.com:25".toList then .ok ⟨5, ⟨[]⟩⟩
    else if addr = "plain.example.com:25".toList then .ok ⟨6, ⟨[]⟩⟩
    else .error ⟨"connection refused".toList⟩
  Extension := fun client ext => ext = "STARTTLS".toList ∧ client.conn ≠ 6
  StartTLS := fun client config =>
    if client.conn = 4 ∧ config.ServerName = "mx4.example.com".toList then .ok ⟨[exampleCert]⟩
    else .error ⟨"handshake failure".toList⟩
  Mail := fun _ _ => none
  Rcpt := fun _ _ => none
  Data := fun _ => none
  Write := fun _ _ => none
  CloseData := fun _ => none
  createResponse := fun _ _ => .ok "report".toList

/-- A configuration of the verification service. -/
def exampleConfig : Config :=
  ⟨"verify@nyms.example".toList, [], [], [], []⟩

/-- A parsed message whose `Dkim-Signature` header names selector `sel1` and domain
`example.com`. -/
def signedMessage : Message :=
  ⟨[("Dkim-Signature".toList, ["v=1; s=sel1; d=example.com".toList])]⟩

/-- The environment `exampleEnv`, except that the message parses to `signedMessage` and
the resolver file is read without error but names no server. -/
def noServerEnv : Env :=
  { exampleEnv with
    ReadMessage := fun _ => .ok signedMessage
    ClientConfigFromFile := fun _ => .ok ⟨[], "53".toList⟩ }


/-! ## Facts about `Split` -/

theorem Split_ne_nil (sep : Char) (s : GoString) : Split sep s ≠ [] := by
  induction s with
  | nil => simp [Split]
  | cons c cs ih =>
    unfold Split
    split
    · simp
    · split <;> simp

theorem Split_length (sep : Char) (s : GoString) :
    (Split sep s).length = s.count sep + 1 := by
  induction s with
  | nil => simp [Split]
  | cons c cs ih =>
    unfold Split
    by_cases h : c = sep
    · subst h
      simp [ih]
    · have hne : (c == sep) = false := by simpa using h
      rw [if_neg h, List.count_cons, hne]
      cases hs : Split sep cs with
      | nil => exact absurd hs (Split_ne_nil sep cs)
      | cons p ps =>
        rw [hs] at ih
        simpa using ih

theorem Split_of_not_mem (sep : Char) (s : GoString) (h : sep ∉ s) : Split sep s = [s] := by
  induction s with
  | nil => simp [Split]
  | cons c cs ih =>
    have hc : c ≠ sep := fun e => h (by simp [e])
    have hcs : sep ∉ cs := fun m => h (List.mem_cons_of_mem _ m)
    unfold Split
    rw [if_neg hc, ih hcs]

theorem Split_cons_sep (sep : Char) (cs : GoString) :
    Split sep (sep :: cs) = [] :: Split sep cs := by
  rw [Split, if_pos rfl]

theorem Split_cons_ne (sep c : Char) (cs p : GoString) (ps : List GoString) (hc : c ≠ sep)
    (hs : Split sep cs = p :: ps) : Split sep (c :: cs) = (c :: p) :: ps := by
  rw [Split, if_neg hc, hs]

theorem Split_append_sep (sep : Char) (l r : GoString) (h : sep ∉ l) :
    Split sep (l ++ sep :: r) = l :: Split sep r := by
  induction l with
  | nil => exact Split_cons_sep sep r
  | cons c cs ih =>
    have hc : c ≠ sep := fun e => h (by simp [e])
    have hcs : sep ∉ cs := fun m => h (List.mem_cons_of_mem _ m)
    exact Split_cons_ne sep c _ _ _ hc (ih hcs)

theorem Split_append (sep : Char) (l r : GoString) :
    Split sep (l ++ sep :: r) = Split sep l ++ Split sep r := by
  induction l with
  | nil => exact Split_cons_sep sep r
  | cons c cs ih =>
    by_cases hc : c = sep
    · subst hc
      rw [List.cons_append, Split_cons_sep, Split_cons_sep, ih, List.cons_append]
    · cases hs : Split sep cs with
      | nil => exact absurd hs (Split_ne_nil sep cs)
      | cons p ps =>
        rw [hs] at ih
        rw [List.cons_append, Split_cons_ne sep c cs p ps hc hs,
          Split_cons_ne sep c _ p (ps ++ Split sep r) hc ih, List.cons_append]

theorem Split_intercalate (sep : Char) (s : GoString) :
    [sep].intercalate (Split sep s) = s := by
  induction s with
  | nil => simp [Split, List.intercalate]
  | cons c cs ih =>
    by_cases h : c = sep
    · subst h
      rw [Split_cons_sep]
      cases hs : Split c cs with
      | nil => exact absurd hs (Split_ne_nil c cs)
      | cons p ps =>
        rw [hs] at ih
        simp only [List.intercalate, List.intersperse, List.flatten] at ih ⊢
        simp [ih]
    · cases hs : Split sep cs with
      | nil => exact absurd hs (Split_ne_nil sep cs)
      | cons p ps =>
        rw [Split_cons_ne sep c cs p ps h hs]
        rw [hs] at ih
        cases ps with
        | nil => simpa [List.intercalate] using ih
        | cons q qs =>
          simp only [List.intercalate, List.intersperse, List.flatten] at ih ⊢
          simp [← ih]

theorem Split_not_mem (sep : Char) (s : GoString) : ∀ p ∈ Split sep s, sep ∉ p := by
  induction s with
  | nil => simp [Split]
  | cons c cs ih =>
    unfold Split
    by_cases h : c = sep
    · rw [if_pos h]
      intro p hp
      rcases List.mem_cons.1 hp with rfl | hp
      · simp
      · exact ih p hp
    · rw [if_neg h]
      cases hs : Split sep cs with
      | nil => exact absurd hs (Split_ne_nil sep cs)
      | cons q qs =>
        rw [hs] at ih
        intro p hp
        rcases List.mem_cons.1 hp with rfl | hp
        · intro hm
          rcases List.mem_cons.1 hm with e | hm
          · exact h e.symm
          · exact ih q (List.mem_cons_self _ _) hm
        · exact ih p (List.mem_cons_of_mem _ hp)

theorem exists_first_sep (sep : Char) (s : GoString) (h : sep ∈ s) :
    ∃ l r, s = l ++ sep :: r ∧ sep ∉ l := by
  induction s with
  | nil => simp at h
  | cons c cs ih =>
    by_cases hc : c = sep
    · exact ⟨[], cs, by simp [hc], by simp⟩
    · have hcs : sep ∈ cs := by
        rcases List.mem_cons.1 h with e | m
        · exact absurd e.symm hc
        · exact m
      obtain ⟨l, r, e, hl⟩ := ih hcs
      refine ⟨c :: l, r, by simp [e], ?_⟩
      intro m
      rcases List.mem_cons.1 m with e | m
      · exact hc e.symm
      · exact hl m

/-! ## Facts about `TrimSpace` -/

/-- The result of `TrimSpace` is the input without a leading and a trailing run of white
space, and it neither starts nor ends with white space. -/
theorem TrimSpace_spec (s : GoString) :
    ∃ pre post, s = pre ++ TrimSpace s ++ post ∧
      (∀ c ∈ pre, IsSpace c = true) ∧ (∀ c ∈ post, IsSpace c = true) ∧
      (∀ c, (TrimSpace s).head? = some c → IsSpace c = false) ∧
      (∀ c, (TrimSpace s).getLast? = some c → IsSpace c = false) := by
  refine ⟨s.takeWhile IsSpace, (s.dropWhile IsSpace).rtakeWhile IsSpace, ?_, ?_, ?_, ?_, ?_⟩
  · have h : (s.dropWhile IsSpace).rdropWhile IsSpace ++ (s.dropWhile IsSpace).rtakeWhile IsSpace
        = s.dropWhile IsSpace := by
      simp only [List.rdropWhile, List.rtakeWhile]
      rw [← List.reverse_append, List.takeWhile_append_dropWhile, List.reverse_reverse]
    unfold TrimSpace
    rw [List.append_assoc, h, List.takeWhile_append_dropWhile]
  · intro c hc
    exact List.mem_takeWhile_imp hc
  · intro c hc
    exact List.mem_rtakeWhile_imp hc
  · intro c hc
    unfold TrimSpace at hc
    obtain ⟨t, ht⟩ := List.rdropWhile_prefix IsSpace (l := s.dropWhile IsSpace)
    have hh := List.head?_dropWhile_not IsSpace s
    cases hr : (s.dropWhile IsSpace).rdropWhile IsSpace with
    | nil => rw [hr] at hc; simp at hc
    | cons x r =>
      rw [hr] at hc ht
      simp only [List.head?_cons, Option.some.injEq] at hc
      subst hc
      rw [← ht] at hh
      simpa using hh
  · intro c hc
    unfold TrimSpace at hc
    have hne : (s.dropWhile IsSpace).rdropWhile IsSpace ≠ [] := by
      intro h
      rw [h] at hc
      simp at hc
    have := List.rdropWhile_last_not IsSpace (s.dropWhile IsSpace) hne
    rw [List.getLast?_eq_getLast _ hne] at hc
    simp only [Option.some.injEq] at hc
    rw [hc] at this
    simpa using this

/-! ## C1: domain extraction -/

/-- C1. `getDomain` on an address with exactly one `@` returns, with no error, the text
after that `@` exactly as written (the address is `l ++ "@" ++ d` with no `@` in `l` or
`d`, and `d` is returned); with no `@` it returns the "no @ character" error, and with
two or more the "too many @ characters" error, both with an empty domain. -/
theorem getDomain_spec (address : Address) :
    (address.Address.count '@' = 1 →
      ∃ l d, address.Address = l ++ '@' :: d ∧ '@' ∉ l ∧ '@' ∉ d ∧
        getDomain address = (d, none)) ∧
    (address.Address.count '@' = 0 →
      getDomain address =
        ([], some ⟨"no @ character in address '".toList ++ address.Address ++ "'".toList⟩)) ∧
    (2 ≤ address.Address.count '@' →
      getDomain address =
        ([], some ⟨"too many @ characters in address '".toList ++ address.Address
          ++ "'".toList⟩)) := by
  refine ⟨?_, ?_, ?_⟩
  · intro h
    have hm : '@' ∈ address.Address := by
      rw [← List.count_pos_iff]; omega
    obtain ⟨l, d, e, hl⟩ := exists_first_sep '@' _ hm
    have hd : '@' ∉ d := by
      rw [e, List.count_append, List.count_cons_self, List.count_eq_zero.2 hl] at h
      exact List.count_eq_zero.1 (by omega)
    refine ⟨l, d, e, hl, hd, ?_⟩
    have hs : Split '@' address.Address = [l, d] := by
      rw [e, Split_append_sep _ _ _ hl, Split_of_not_mem _ _ hd]
    simp [getDomain, hs]
  · intro h
    have hlen := Split_length '@' address.Address
    simp [getDomain, hlen, h]
  · intro h
    have hlen := Split_length '@' address.Address
    have h1 : ¬ (address.Address.count '@' + 1 < 2) := by omega
    have h2 : address.Address.count '@' + 1 > 2 := by omega
    simp only [getDomain, hlen, if_neg h1, if_pos h2]

/-- Witness for C1 on `Alice@Example.COM`, `alice.example.com` and `a@b@c`. -/
theorem getDomain_spec_witness :
    (∃ l d, "Alice@Example.COM".toList = l ++ '@' :: d ∧ '@' ∉ l ∧ '@' ∉ d ∧
      getDomain ⟨[], "Alice@Example.COM".toList⟩ = (d, none)) ∧
    getDomain ⟨[], "alice.example.com".toList⟩ =
      ([], some ⟨"no @ character in address '".toList ++ "alice.example.com".toList
        ++ "'".toList⟩) ∧
    getDomain ⟨[], "a@b@c".toList⟩ =
      ([], some ⟨"too many @ characters in address '".toList ++ "a@b@c".toList
        ++ "'".toList⟩) :=
  ⟨(getDomain_spec ⟨[], "Alice@Example.COM".toList⟩).1 (by decide),
    (getDomain_spec ⟨[], "alice.example.com".toList⟩).2.1 (by decide),
    (getDomain_spec ⟨[], "a@b@c".toList⟩).2.2 (by decide)⟩

/-! ## Facts about `GoMap` -/

theorem GoMap.lookup_filter_ne (m : GoMap) (k k' : GoString) :
    (m.filter (fun e => e.1 != k)).lookup k' = if k' = k then none else m.lookup k' := by
  induction m with
  | nil => simp
  | cons e es ih =>
    obtain ⟨a, b⟩ := e
    by_cases hak : a = k
    · subst hak
      by_cases hk : k' = a
      · subst hk
        simp [List.filter_cons, ih]
      · have : (k' == a) = false := by simpa using hk
        simp [List.filter_cons, ih, List.lookup_cons, this, hk]
    · have hf : (a != k) = true := by simpa using hak
      rw [List.filter_cons]
      simp only [hf, if_true, List.lookup_cons]
      by_cases hka : k' = a
      · subst hka
        simp [hak]
      · have : (k' == a) = false := by simpa using hka
        simp [this, ih]

theorem GoMap.get?_set (m : GoMap) (k v k' : GoString) :
    (m.set k v).get? k' = if k' = k then some v else m.get? k' := by
  unfold GoMap.set GoMap.get?
  rw [List.lookup_cons]
  by_cases h : k' = k
  · subst h; simp
  · have : (k' == k) = false := by simpa using h
    simp [this, h, GoMap.lookup_filter_ne]

theorem GoMap.keys_set (m : GoMap) (k v : GoString) (h : (m.map Prod.fst).Nodup) :
    ((m.set k v).map Prod.fst).Nodup := by
  unfold GoMap.set
  rw [List.map_cons, List.nodup_cons]
  constructor
  · intro hm
    obtain ⟨e, he, hk⟩ := List.mem_map.1 hm
    have := (List.mem_filter.1 he).2
    simp at this
    exact this hk
  · exact (List.filter_sublist _).map Prod.fst |>.nodup h

/-! ## C7: DKIM parameter parsing -/

/-- The piece `seg` (already trimmed) is a well-formed `key=value` pair. -/
theorem Split_eq_pair_iff (seg k v : GoString) :
    ((Split '=' seg).length = 2 ∧ (Split '=' seg).getD 0 [] = k ∧ (Split '=' seg).getD 1 [] = v)
      ↔ (seg = k ++ '=' :: v ∧ '=' ∉ k ∧ '=' ∉ v) := by
  constructor
  · rintro ⟨hlen, h0, h1⟩
    have hc : seg.count '=' = 1 := by
      have := Split_length '=' seg
      omega
    have hm : '=' ∈ seg := by
      rw [← List.count_pos_iff]; omega
    obtain ⟨l, d, e, hl⟩ := exists_first_sep '=' _ hm
    have hd : '=' ∉ d := by
      rw [e, List.count_append, List.count_cons_self, List.count_eq_zero.2 hl] at hc
      exact List.count_eq_zero.1 (by omega)
    have hs : Split '=' seg = [l, d] := by
      rw [e, Split_append_sep _ _ _ hl, Split_of_not_mem _ _ hd]
    rw [hs] at h0 h1
    simp at h0 h1
    subst h0 h1
    exact ⟨e, hl, hd⟩
  · rintro ⟨e, hk, hv⟩
    have hs : Split '=' seg = [k, v] := by
      rw [e, Split_append_sep _ _ _ hk, Split_of_not_mem _ _ hv]
    simp [hs]

theorem append_sep_inj (sep : Char) (k k' v v' : GoString) (hk : sep ∉ k) (hk' : sep ∉ k')
    (e : k ++ sep :: v = k' ++ sep :: v') : k = k' ∧ v = v' := by
  induction k generalizing k' with
  | nil =>
    cases k' with
    | nil => simpa using e
    | cons c cs =>
      simp only [List.nil_append, List.cons_append, List.cons.injEq] at e
      exact absurd (by simp [e.1]) hk'
  | cons c cs ih =>
    cases k' with
    | nil =>
      simp only [List.nil_append, List.cons_append, List.cons.injEq] at e
      exact absurd (by simp [e.1]) hk
    | cons c' cs' =>
      simp only [List.cons_append, List.cons.injEq] at e
      have hcs : sep ∉ cs := fun m => hk (List.mem_cons_of_mem _ m)
      have hcs' : sep ∉ cs' := fun m => hk' (List.mem_cons_of_mem _ m)
      obtain ⟨h1, h2⟩ := ih cs' hcs hcs' e.2
      exact ⟨by rw [e.1, h1], h2⟩

/-- The loop of `parseDKIM`, started from any map `dm`. -/
theorem parseDKIM_loop (segs : List GoString) (dm : GoMap) (k v : GoString) :
    (segs.foldl
        (fun dm pair =>
          let kv := Split '=' (TrimSpace pair)
          if kv.length = 2 then dm.set (kv.getD 0 []) (kv.getD 1 []) else dm)
        dm).get? k = some v ↔
      (∃ before after, segs.map TrimSpace = before ++ (k ++ '=' :: v) :: after ∧
          '=' ∉ k ∧ '=' ∉ v ∧ ∀ seg ∈ after, ∀ w, '=' ∉ w → seg ≠ k ++ '=' :: w) ∨
      (dm.get? k = some v ∧
          ∀ seg ∈ segs.map TrimSpace, '=' ∉ k → ∀ w, '=' ∉ w → seg ≠ k ++ '=' :: w) := by
  induction segs generalizing dm with
  | nil => simp
  | cons s rest ih =>
    rw [List.foldl_cons, ih]
    simp only [List.map_cons, List.mem_cons, forall_eq_or_imp]
    by_cases hpair : (Split '=' (TrimSpace s)).length = 2
    · -- the piece is a pair `k0=v0`
      obtain ⟨e0, hk0, hv0⟩ := (Split_eq_pair_iff (TrimSpace s) _ _).1 ⟨hpair, rfl, rfl⟩
      generalize (Split '=' (TrimSpace s)).getD 0 [] = k0 at e0 hk0
      generalize (Split '=' (TrimSpace s)).getD 1 [] = v0 at e0 hv0
      simp only [hpair, if_true, GoMap.get?_set]
      constructor
      · rintro (⟨b, a, e, hk, hv, hno⟩ | ⟨hget, hno⟩)
        · exact Or.inl ⟨TrimSpace s :: b, a, by simp [e], hk, hv, hno⟩
        · by_cases hkk : k = k0
          · subst hkk
            simp only [if_true, Option.some.injEq] at hget
            subst hget
            exact Or.inl ⟨[], rest.map TrimSpace, by simp [e0], hk0, hv0,
              fun seg hs w hw => hno seg hs hk0 w hw⟩
          · rw [if_neg hkk] at hget
            refine Or.inr ⟨hget, ?_, hno⟩
            intro hk w hw e
            rw [e0] at e
            exact hkk (append_sep_inj '=' _ _ _ _ hk0 hk e).1.symm
      · rintro (⟨b, a, e, hk, hv, hno⟩ | ⟨hget, hs, hno⟩)
        · rcases List.cons_eq_append_iff.1 e with ⟨hb, hh⟩ | ⟨b', hb, hh⟩
          · simp only [List.cons.injEq] at hh
            obtain ⟨h1, h2⟩ := hh
            rw [e0] at h1
            obtain ⟨hkk, hvv⟩ := append_sep_inj '=' _ _ _ _ hk hk0 h1
            subst hkk hvv h2
            exact Or.inr ⟨by simp, fun seg hs _ w hw => hno seg hs w hw⟩
          · exact Or.inl ⟨b', a, hh, hk, hv, hno⟩
        · have hkk : k ≠ k0 := by
            intro hkk
            subst hkk
            exact hs hk0 v0 hv0 e0
          exact Or.inr ⟨by rw [if_neg hkk]; exact hget, hno⟩
    · -- the piece is dropped
      simp only [hpair, if_false]
      have hnot : '=' ∉ k → ∀ w, '=' ∉ w → TrimSpace s ≠ k ++ '=' :: w := by
        intro hk w hw e
        exact hpair ((Split_eq_pair_iff (TrimSpace s) k w).2 ⟨e, hk, hw⟩).1
      constructor
      · rintro (⟨b, a, e, hk, hv, hno⟩ | ⟨hget, hno⟩)
        · exact Or.inl ⟨TrimSpace s :: b, a, by simp [e], hk, hv, hno⟩
        · exact Or.inr ⟨hget, hnot, hno⟩
      · rintro (⟨b, a, e, hk, hv, hno⟩ | ⟨hget, _, hno⟩)
        · rcases List.cons_eq_append_iff.1 e with ⟨hb, hh⟩ | ⟨b', hb, hh⟩
          · simp only [List.cons.injEq] at hh
            exact absurd hh.1.symm (hnot hk v hv)
          · exact Or.inl ⟨b', a, hh, hk, hv, hno⟩
        · exact Or.inr ⟨hget, hno⟩

theorem parseDKIM_loop_keys (segs : List GoString) (dm : GoMap)
    (h : (dm.map Prod.fst).Nodup) :
    ((segs.foldl
        (fun dm pair =>
          let kv := Split '=' (TrimSpace pair)
          if kv.length = 2 then dm.set (kv.getD 0 []) (kv.getD 1 []) else dm)
        dm).map Prod.fst).Nodup := by
  induction segs generalizing dm with
  | nil => exact h
  | cons s rest ih =>
    rw [List.foldl_cons]
    apply ih
    by_cases hpair : (Split '=' (TrimSpace s)).length = 2
    · simp only [hpair, if_true]
      exact GoMap.keys_set _ _ _ h
    · simp only [hpair, if_false]
      exact h

theorem parseDKIM_loop_malformed (segs : List GoString) (dm : GoMap)
    (h : ∀ seg ∈ segs, (TrimSpace seg).count '=' ≠ 1) :
    segs.foldl
        (fun dm pair =>
          let kv := Split '=' (TrimSpace pair)
          if kv.length = 2 then dm.set (kv.getD 0 []) (kv.getD 1 []) else dm)
        dm = dm := by
  induction segs generalizing dm with
  | nil => rfl
  | cons s rest ih =>
    have hs : (Split '=' (TrimSpace s)).length ≠ 2 := by
      have := h s (List.mem_cons_self _ _)
      rw [Split_length]
      omega
    rw [List.foldl_cons]
    simp only [hs, if_false]
    exact ih dm fun seg hseg => h seg (List.mem_cons_of_mem _ hseg)

theorem parseDKIM_append_malformed (dkim rest : GoString)
    (h : ∀ seg ∈ Split ';' rest, (TrimSpace seg).count '=' ≠ 1) :
    parseDKIM (dkim ++ ';' :: rest) = parseDKIM dkim := by
  unfold parseDKIM
  rw [Split_append, List.foldl_append, parseDKIM_loop_malformed _ _ h]

/-- C7. `parseDKIM` maps `k` to `v` exactly when, among the pieces of the header value
between `;`, each trimmed of surrounding white space, some piece is `k=v` with no `=` in
`k` or in `v` and no later piece is `k=w` for a `w` without `=` (so pieces with no `=` or
with two or more contribute nothing, and a later pair replaces an earlier one with the same
key); each key occurs once; on `v=1; s=sel1; d=example.com; ...` the entries are exactly
`v ↦ 1`, `s ↦ sel1`, `d ↦ example.com`; and so they are when `v=1; s=sel1; d=example.com`
is followed by `;` and any pieces none of which has exactly one `=`. -/
theorem parseDKIM_spec :
    (∀ dkim k v : GoString,
      (parseDKIM dkim).get? k = some v ↔
        ∃ before after,
          (Split ';' dkim).map TrimSpace = before ++ (k ++ '=' :: v) :: after ∧
          '=' ∉ k ∧ '=' ∉ v ∧ ∀ seg ∈ after, ∀ w, '=' ∉ w → seg ≠ k ++ '=' :: w) ∧
    (∀ dkim : GoString, ((parseDKIM dkim).map Prod.fst).Nodup) ∧
    (parseDKIM "v=1; s=sel1; d=example.com; ...".toList).Perm
      [("v".toList, "1".toList), ("s".toList, "sel1".toList),
        ("d".toList, "example.com".toList)] ∧
    (∀ rest : GoString,
      (∀ seg ∈ Split ';' rest, (TrimSpace seg).count '=' ≠ 1) →
      (parseDKIM ("v=1; s=sel1; d=example.com".toList ++ ';' :: rest)).Perm
        [("v".toList, "1".toList), ("s".toList, "sel1".toList),
          ("d".toList, "example.com".toList)]) := by
  have h : parseDKIM "v=1; s=sel1; d=example.com".toList =
      [("d".toList, "example.com".toList), ("s".toList, "sel1".toList),
        ("v".toList, "1".toList)] := by decide
  refine ⟨?_, ?_, ?_, ?_⟩
  · intro dkim k v
    unfold parseDKIM
    rw [parseDKIM_loop]
    simp [GoMap.get?]
  · intro dkim
    exact parseDKIM_loop_keys _ [] (by simp)
  · have h' : parseDKIM "v=1; s=sel1; d=example.com; ...".toList =
        [("d".toList, "example.com".toList), ("s".toList, "sel1".toList),
          ("v".toList, "1".toList)] := by decide
    rw [h']
    decide
  · intro rest hrest
    rw [parseDKIM_append_malformed _ rest hrest, h]
    decide

/-- Witness for C7: in `s=old; x; s = a=b ;s=new`, the last well-formed pair with key `s`
wins, and the pieces `x` and `s = a=b` contribute nothing. -/
theorem parseDKIM_spec_witness :
    (parseDKIM "s=old; x; s = a=b ;s=new".toList).get? "s".toList = some "new".toList :=
  (parseDKIM_spec.1 "s=old; x; s = a=b ;s=new".toList "s".toList "new".toList).2
    ⟨["s=old".toList, "x".toList, "s = a=b".toList], [], by decide, by decide, by decide,
      by simp⟩

/-! ## Facts about `Run` -/

@[simp] theorem run_pure_eq {α : Type} (a : α) : (pure a : Run α) = ⟨[], some a⟩ := rfl

@[simp] theorem run_bind_eq {α β : Type} (m : Run α) (f : α → Run β) :
    m >>= f = Run.bind m f := rfl

@[simp] theorem run_emit_bind {β : Type} (e : Event) (f : Unit → Run β) :
    Run.bind (emit e) f = ⟨e :: (f ()).trace, (f ()).result⟩ := rfl

theorem run_bind_some {α β : Type} (m : Run α) (f : α → Run β) (a : α)
    (h : m.result = some a) :
    Run.bind m f = ⟨m.trace ++ (f a).trace, (f a).result⟩ := by
  simp [Run.bind, h]

theorem run_bind_none {α β : Type} (m : Run α) (f : α → Run β) (h : m.result = none) :
    Run.bind m f = ⟨m.trace, none⟩ := by
  simp [Run.bind, h]

theorem foldl_append_eq_flatten (txt : List GoString) (acc : GoString) :
    txt.foldl (fun result s => result ++ s) acc = acc ++ txt.flatten := by
  induction txt generalizing acc with
  | nil => simp
  | cons s rest ih => simp [ih]

@[simp] theorem run_bind_mk_some {α β : Type} (t : List Event) (a : α) (f : α → Run β) :
    Run.bind ⟨t, some a⟩ f = ⟨t ++ (f a).trace, (f a).result⟩ := rfl

@[simp] theorem run_bind_mk_none {α β : Type} (t : List Event) (f : α → Run β) :
    Run.bind ⟨t, none⟩ f = ⟨t, none⟩ := rfl

/-! ## C5 and C6: the DNS response -/

theorem processDKIMResponse_rcode (selector domain : GoString) (r : Msg)
    (hr : r.Rcode ≠ RcodeSuccess) :
    ∃ e, processDKIMResponse selector domain r = ⟨[], some ([], some e)⟩ := by
  unfold processDKIMResponse
  rw [if_pos hr]
  exact ⟨_, rfl⟩

theorem processDKIMResponse_empty (selector domain : GoString) (r : Msg)
    (hr : r.Rcode = RcodeSuccess) (hA : r.Answer = []) :
    ∃ e, processDKIMResponse selector domain r = ⟨[], some ([], some e)⟩ := by
  unfold processDKIMResponse
  simp only [if_neg (not_not.2 hr), hA, List.length_nil, if_true]
  exact ⟨_, rfl⟩

theorem processDKIMResponse_cons (selector domain : GoString) (r : Msg)
    (hr : r.Rcode = RcodeSuccess) (a : RR) (rest : List RR) (hA : r.Answer = a :: rest) :
    processDKIMResponse selector domain r =
      ⟨if rest = [] then []
        else [.Warning ("lookup s=".toList ++ selector ++ " d=".toList ++ domain
              ++ " returned ".toList ++ (toString (rest.length + 1)).toList
              ++ " answers, expecting 1.  Ignoring extra responses".toList)],
       match a with
       | RR.TXT txt => some (txt.flatten, none)
       | _ => some ([], some ⟨"answer RR for lookup s=".toList ++ selector ++ " d=".toList
            ++ domain ++ " is not a TXT record".toList⟩)⟩ := by
  unfold processDKIMResponse
  simp only [if_neg (not_not.2 hr), hA]
  rw [if_neg (by simp)]
  by_cases hlen : rest = []
  · subst hlen
    cases a <;> simp [foldl_append_eq_flatten]
  · have h1 : (a :: rest).length > 1 := by
      have := List.length_pos.2 hlen
      simp only [List.length_cons]; omega
    rw [run_bind_eq, if_pos h1, if_neg hlen]
    cases a <;> simp [foldl_append_eq_flatten]

theorem processDKIMResponse_error_key (selector domain key : GoString) (r : Msg)
    (err : GoError)
    (h : (processDKIMResponse selector domain r).result = some (key, some err)) :
    key = [] := by
  by_cases hr : r.Rcode = RcodeSuccess
  · cases hA : r.Answer with
    | nil =>
      obtain ⟨e, he⟩ := processDKIMResponse_empty selector domain r hr hA
      rw [he] at h
      simp only [Option.some.injEq, Prod.mk.injEq] at h
      exact h.1.symm
    | cons a rest =>
      rw [processDKIMResponse_cons selector domain r hr a rest hA] at h
      cases a with
      | TXT txt => simp at h
      | other n =>
        simp only [Option.some.injEq, Prod.mk.injEq] at h
        exact h.1.symm
  · obtain ⟨e, he⟩ := processDKIMResponse_rcode selector domain r hr
    rw [he] at h
    simp only [Option.some.injEq, Prod.mk.injEq] at h
    exact h.1.symm

theorem processDKIMResponse_shape_error (selector domain : GoString) (r : Msg)
    (h : r.Rcode ≠ RcodeSuccess ∨ r.Answer = [] ∨
      ∃ a rest, r.Answer = a :: rest ∧ ∀ txt, a ≠ RR.TXT txt) :
    ∃ err, (processDKIMResponse selector domain r).result = some ([], some err) := by
  by_cases hr : r.Rcode = RcodeSuccess
  · rcases h with h | h | ⟨a, rest, hA, ha⟩
    · exact absurd hr h
    · obtain ⟨e, he⟩ := processDKIMResponse_empty selector domain r hr h
      exact ⟨e, by rw [he]⟩
    · rw [processDKIMResponse_cons selector domain r hr a rest hA]
      cases a with
      | TXT txt => exact absurd rfl (ha txt)
      | other n => exact ⟨_, rfl⟩
  · obtain ⟨e, he⟩ := processDKIMResponse_rcode selector domain r hr
    exact ⟨e, by rw [he]⟩

/-- C5. `processDKIMResponse` always returns; the error it returns is non-nil exactly when
the response code is not `RcodeSuccess`, or the answer section is empty, or the first
answer is not a TXT record; and whenever the error is non-nil the key text is empty. -/
theorem processDKIMResponse_error_iff (selector domain : GoString) (r : Msg) :
    ∃ key err, (processDKIMResponse selector domain r).result = some (key, err) ∧
      (err ≠ none ↔
        (r.Rcode ≠ RcodeSuccess ∨ r.Answer = [] ∨
          ∃ a rest, r.Answer = a :: rest ∧ ∀ txt, a ≠ RR.TXT txt)) ∧
      (err ≠ none → key = []) := by
  by_cases hr : r.Rcode = RcodeSuccess
  · cases hA : r.Answer with
    | nil =>
      obtain ⟨e, he⟩ := processDKIMResponse_empty selector domain r hr hA
      exact ⟨[], some e, by rw [he], by simp, fun _ => rfl⟩
    | cons a rest =>
      rw [processDKIMResponse_cons selector domain r hr a rest hA]
      cases a with
      | TXT txt => exact ⟨txt.flatten, none, rfl, by simp [hr], by simp⟩
      | other n => exact ⟨[], some _, rfl, by simp, fun _ => rfl⟩
  · obtain ⟨e, he⟩ := processDKIMResponse_rcode selector domain r hr
    exact ⟨[], some e, by rw [he], by simp [hr], fun _ => rfl⟩

/-- C6. On a response with code `RcodeSuccess` whose first answer is a TXT record with
segments `txt`, `processDKIMResponse` returns the concatenation of the segments, with no
separator and no error, whatever answers `rest` follow; it logs one warning exactly when
`rest` is not empty; `["part1", "part2"]` gives `part1part2`; and two such responses with
the same first answer give the same result. -/
theorem processDKIMResponse_txt :
    (∀ (selector domain : GoString) (rd : Bool) (q : List Question) (txt : List GoString)
        (rest : List RR),
      (processDKIMResponse selector domain ⟨rd, RcodeSuccess, q, RR.TXT txt :: rest⟩).result
          = some (txt.flatten, none) ∧
      (processDKIMResponse selector domain ⟨rd, RcodeSuccess, q, RR.TXT txt :: rest⟩).trace
          = if rest = [] then []
            else [.Warning ("lookup s=".toList ++ selector ++ " d=".toList ++ domain
              ++ " returned ".toList ++ (toString (rest.length + 1)).toList
              ++ " answers, expecting 1.  Ignoring extra responses".toList)]) ∧
    (∀ (selector domain : GoString) (rest : List RR),
      (processDKIMResponse selector domain
          ⟨true, RcodeSuccess, [], RR.TXT ["part1".toList, "part2".toList] :: rest⟩).result
        = some ("part1part2".toList, none)) ∧
    (∀ (selector domain : GoString) (r₁ r₂ : Msg) (txt : List GoString),
      r₁.Rcode = RcodeSuccess → r₂.Rcode = RcodeSuccess →
      r₁.Answer.head? = some (RR.TXT txt) → r₂.Answer.head? = some (RR.TXT txt) →
      (processDKIMResponse selector domain r₁).result
        = (processDKIMResponse selector domain r₂).result) := by
  have main : ∀ (selector domain : GoString) (rd : Bool) (q : List Question)
      (txt : List GoString) (rest : List RR),
      (processDKIMResponse selector domain ⟨rd, RcodeSuccess, q, RR.TXT txt :: rest⟩).result
          = some (txt.flatten, none) := by
    intro selector domain rd q txt rest
    rw [processDKIMResponse_cons selector domain _ rfl (RR.TXT txt) rest rfl]
  refine ⟨fun selector domain rd q txt rest => ⟨main selector domain rd q txt rest, ?_⟩, ?_, ?_⟩
  · rw [processDKIMResponse_cons selector domain _ rfl (RR.TXT txt) rest rfl]
  · intro selector domain rest
    rw [main]
    rfl
  · intro selector domain r₁ r₂ txt h₁ h₂ a₁ a₂
    obtain ⟨rd₁, c₁, q₁, A₁⟩ := r₁
    obtain ⟨rd₂, c₂, q₂, A₂⟩ := r₂
    simp only at h₁ h₂ a₁ a₂
    subst h₁ h₂
    cases A₁ with
    | nil => simp at a₁
    | cons x xs =>
      cases A₂ with
      | nil => simp at a₂
      | cons y ys =>
        simp only [List.head?_cons, Option.some.injEq] at a₁ a₂
        subst a₁ a₂
        rw [main, main]

/-- Witness for C6: a TXT answer in two segments followed by a second answer. -/
theorem processDKIMResponse_txt_witness :
    (processDKIMResponse "sel1".toList "example.com".toList
        ⟨true, RcodeSuccess, [], [RR.TXT ["part1".toList, "part2".toList]]⟩).result
      = (processDKIMResponse "sel1".toList "example.com".toList
        ⟨true, RcodeSuccess, [], [RR.TXT ["part1".toList, "part2".toList], RR.other 5]⟩).result :=
  processDKIMResponse_txt.2.2 _ _ _ _ ["part1".toList, "part2".toList] rfl rfl rfl rfl

/-! ## C9: MX resolution -/

theorem LookupMX_ok_ne_nil (env : Env) (domain : GoString) (mxs : List MX)
    (h : LookupMX env domain = .ok mxs) : mxs ≠ [] := by
  unfold LookupMX at h
  split at h
  · simp at h
  · simp at h
  · simp only [Except.ok.injEq] at h
    rw [← h]
    simp

/-- C9. For a sender address with exactly one `@`, `getMXForSender` looks up the text
after the `@`.  When the resolver's answer is an error, it fails with an error naming the
domain and that cause; when the answer holds no MX record, `net.LookupMX` reports its
"no such host" error and `getMXForSender` fails with an error naming the domain and that
cause; otherwise it returns the records of the answer, in the resolver's order and
unchanged, with no error.  It never returns an empty list with a nil error. -/
theorem getMXForSender_spec (env : Env) (sender : Address)
    (h : sender.Address.count '@' = 1) :
    ∃ l domain, sender.Address = l ++ '@' :: domain ∧ '@' ∉ l ∧ '@' ∉ domain ∧
      (∀ err, env.answerMX domain = .error err →
        getMXForSender env sender =
          ⟨[.LookupMX domain],
            some ([], some ⟨"failed to lookup MX for domain (".toList ++ domain
              ++ "): ".toList ++ err.Error⟩)⟩) ∧
      (env.answerMX domain = .ok [] →
        getMXForSender env sender =
          ⟨[.LookupMX domain],
            some ([], some ⟨"failed to lookup MX for domain (".toList ++ domain
              ++ "): ".toList ++ (env.errNoSuchHost domain).Error⟩)⟩) ∧
      (∀ mxs, mxs ≠ [] → env.answerMX domain = .ok mxs →
        getMXForSender env sender = ⟨[.LookupMX domain], some (mxs, none)⟩) ∧
      (∀ mxs, (getMXForSender env sender).result = some (mxs, none) → mxs ≠ []) := by
  have hm : '@' ∈ sender.Address := by
    rw [← List.count_pos_iff]; omega
  obtain ⟨l, d, e, hl⟩ := exists_first_sep '@' _ hm
  have hd : '@' ∉ d := by
    rw [e, List.count_append, List.count_cons_self, List.count_eq_zero.2 hl] at h
    exact List.count_eq_zero.1 (by omega)
  have hs : Split '@' sender.Address = [l, d] := by
    rw [e, Split_append_sep _ _ _ hl, Split_of_not_mem _ _ hd]
  have hg : getDomain sender = (d, none) := by
    simp [getDomain, hs]
  refine ⟨l, d, e, hl, hd, ?_, ?_, ?_, ?_⟩
  · intro err herr
    have hL : LookupMX env d = .error err := by
      simp only [LookupMX, herr]
    simp only [getMXForSender, hg, hL, run_bind_eq, run_emit_bind, run_pure_eq]
  · intro hempty
    have hL : LookupMX env d = .error (env.errNoSuchHost d) := by
      simp only [LookupMX, hempty]
    simp only [getMXForSender, hg, hL, run_bind_eq, run_emit_bind, run_pure_eq]
  · intro mxs hne hmxs
    have hL : LookupMX env d = .ok mxs := by
      cases mxs with
      | nil => exact absurd rfl hne
      | cons mx rest => simp only [LookupMX, hmxs]
    simp only [getMXForSender, hg, hL, run_bind_eq, run_emit_bind, run_pure_eq]
  · intro mxs hres
    cases hL : LookupMX env d with
    | error err =>
      simp [getMXForSender, hg, hL] at hres
    | ok found =>
      simp only [getMXForSender, hg, hL, run_bind_eq, run_emit_bind, run_pure_eq,
        Option.some.injEq, Prod.mk.injEq, and_true] at hres
      rw [← hres]
      exact LookupMX_ok_ne_nil env d found hL

/-- Witness for C9: `alice@example.com`, whose domain has four MX records. -/
theorem getMXForSender_spec_witness :
    alice.Address.count '@' = 1 ∧
    ∃ l domain, alice.Address = l ++ '@' :: domain ∧ '@' ∉ l ∧ '@' ∉ domain ∧
      (∀ err, exampleEnv.answerMX domain = .error err →
        getMXForSender exampleEnv alice =
          ⟨[.LookupMX domain],
            some ([], some ⟨"failed to lookup MX for domain (".toList ++ domain
              ++ "): ".toList ++ err.Error⟩)⟩) ∧
      (exampleEnv.answerMX domain = .ok [] →
        getMXForSender exampleEnv alice =
          ⟨[.LookupMX domain],
            some ([], some ⟨"failed to lookup MX for domain (".toList ++ domain
              ++ "): ".toList ++ (exampleEnv.errNoSuchHost domain).Error⟩)⟩) ∧
      (∀ mxs, mxs ≠ [] → exampleEnv.answerMX domain = .ok mxs →
        getMXForSender exampleEnv alice = ⟨[.LookupMX domain], some (mxs, none)⟩) ∧
      (∀ mxs, (getMXForSender exampleEnv alice).result = some (mxs, none) → mxs ≠ []) :=
  ⟨by decide, getMXForSender_spec exampleEnv alice (by decide)⟩

/-- Two runs of `getMXForSender` on `exampleEnv`: the records of `example.com` are returned in
order, and the answer without MX records for `nomx.example` makes `getMXForSender` fail. -/
theorem getMXForSender_examples :
    (getMXForSender exampleEnv alice).result = some (exampleMXs, none) ∧
    (getMXForSender exampleEnv ⟨[], "bob@nomx.example".toList⟩).result =
      some ([], some ⟨("failed to lookup MX for domain (nomx.example): "
        ++ "lookup nomx.example: no such host").toList⟩) := by
  decide

/-! ## C10: the sender address -/

/-- C10 fails on the code. With an empty `-s` value and `$SENDER` set to
`alice@example.com`, `getSenderAddress` hands the empty string, not the value of
`$SENDER`, to `mail.ParseAddress`: when that call fails, the process ends in `fatal` with
"Failed to parse sender address ''", and the address in `$SENDER` is never parsed. -/
theorem getSenderAddress_ignores_SENDER
    (ParseAddress : GoString → Except GoError Address) :
    getSenderAddress ParseAddress (fun _ => "alice@example.com".toList) [] =
      match ParseAddress [] with
      | .error err =>
        .error ⟨"Failed to parse sender address '': ".toList ++ err.Error⟩
      | .ok addr => .ok addr := by
  unfold getSenderAddress
  cases h : ParseAddress [] with
  | error err => simp [h, fatal]
  | ok addr =>
    simp [h]
    rfl

/-! ## C3: one connection attempt -/

theorem connectTo_dial_error (env : Env) (hostname : GoString) (err : GoError)
    (hd : env.Dial (hostname ++ ":25".toList) = .error err) :
    connectTo env hostname = ⟨[.Dial (hostname ++ ":25".toList)], some (none, some err)⟩ := by
  simp only [connectTo, hd, run_bind_eq, run_emit_bind, run_pure_eq]

theorem connectTo_plain (env : Env) (hostname : GoString) (c : Client)
    (hd : env.Dial (hostname ++ ":25".toList) = .ok c)
    (hx : env.Extension c "STARTTLS".toList = false) :
    connectTo env hostname =
      ⟨[.Dial (hostname ++ ":25".toList), .Extension c.conn "STARTTLS".toList],
        some (some c, none)⟩ := by
  simp only [connectTo, hd, hx, run_bind_eq, run_emit_bind, run_pure_eq]
  rfl

theorem connectTo_tls_error (env : Env) (hostname : GoString) (c : Client) (err : GoError)
    (hd : env.Dial (hostname ++ ":25".toList) = .ok c)
    (hx : env.Extension c "STARTTLS".toList = true)
    (ht : env.StartTLS c ⟨hostname⟩ = .error err) :
    connectTo env hostname =
      ⟨[.Dial (hostname ++ ":25".toList), .Extension c.conn "STARTTLS".toList,
          .StartTLS c.conn ⟨hostname⟩, .Close c.conn],
        some (none, some err)⟩ := by
  simp only [connectTo, hd, hx, ht, run_bind_eq, run_emit_bind, run_pure_eq]
  rfl

theorem connectTo_tls_ok (env : Env) (hostname : GoString) (c : Client)
    (state : ConnectionState)
    (hd : env.Dial (hostname ++ ":25".toList) = .ok c)
    (hx : env.Extension c "STARTTLS".toList = true)
    (ht : env.StartTLS c ⟨hostname⟩ = .ok state) :
    connectTo env hostname =
      ⟨[.Dial (hostname ++ ":25".toList), .Extension c.conn "STARTTLS".toList,
          .StartTLS c.conn ⟨hostname⟩],
        some (some (c.withTLS state), none)⟩ := by
  simp only [connectTo, hd, hx, ht, run_bind_eq, run_emit_bind, run_pure_eq]
  rfl

/-- C3. `connectTo` always returns.  It returns a session only with a nil error, and only
if the dial of `hostname:25` succeeded and either STARTTLS was not advertised (the session
is the dialled client) or `StartTLS` with `ServerName` equal to `hostname` succeeded (the
session is the dialled client with the negotiated state).  When STARTTLS is advertised and
`StartTLS` fails, `connectTo` closes the connection as its last action and returns no
session together with the error of `StartTLS`. -/
theorem connectTo_spec (env : Env) (hostname : GoString) :
    (∃ client err, (connectTo env hostname).result = some (client, err)) ∧
    (∀ session err, (connectTo env hostname).result = some (some session, err) →
      err = none ∧
      ∃ c, env.Dial (hostname ++ ":25".toList) = .ok c ∧
        ((env.Extension c "STARTTLS".toList = false ∧ session = c) ∨
          (env.Extension c "STARTTLS".toList = true ∧
            ∃ state, env.StartTLS c ⟨hostname⟩ = .ok state ∧
              session = c.withTLS state))) ∧
    (∀ c err, env.Dial (hostname ++ ":25".toList) = .ok c →
      env.Extension c "STARTTLS".toList = true →
      env.StartTLS c ⟨hostname⟩ = .error err →
      connectTo env hostname =
        ⟨[.Dial (hostname ++ ":25".toList), .Extension c.conn "STARTTLS".toList,
            .StartTLS c.conn ⟨hostname⟩, .Close c.conn],
          some (none, some err)⟩) := by
  refine ⟨?_, ?_, fun c err hd hx ht => connectTo_tls_error env hostname c err hd hx ht⟩
  · cases hd : env.Dial (hostname ++ ":25".toList) with
    | error err => exact ⟨_, _, by rw [connectTo_dial_error env hostname err hd]⟩
    | ok c =>
      cases hx : env.Extension c "STARTTLS".toList with
      | false => exact ⟨_, _, by rw [connectTo_plain env hostname c hd hx]⟩
      | true =>
        cases ht : env.StartTLS c ⟨hostname⟩ with
        | error err => exact ⟨_, _, by rw [connectTo_tls_error env hostname c err hd hx ht]⟩
        | ok state => exact ⟨_, _, by rw [connectTo_tls_ok env hostname c state hd hx ht]⟩
  · intro session err hres
    cases hd : env.Dial (hostname ++ ":25".toList) with
    | error e =>
      rw [connectTo_dial_error env hostname e hd] at hres
      simp at hres
    | ok c =>
      cases hx : env.Extension c "STARTTLS".toList with
      | false =>
        rw [connectTo_plain env hostname c hd hx] at hres
        simp only [Option.some.injEq, Prod.mk.injEq] at hres
        exact ⟨hres.2.symm, c, rfl, Or.inl ⟨hx, hres.1.symm⟩⟩
      | true =>
        cases ht : env.StartTLS c ⟨hostname⟩ with
        | error e =>
          rw [connectTo_tls_error env hostname c e hd hx ht] at hres
          simp at hres
        | ok state =>
          rw [connectTo_tls_ok env hostname c state hd hx ht] at hres
          simp only [Option.some.injEq, Prod.mk.injEq] at hres
          exact ⟨hres.2.symm, c, rfl, Or.inr ⟨hx, state, ht, hres.1.symm⟩⟩

/-- Witness for C3: `tlsfail.example.com` advertises STARTTLS and fails the handshake; the
connection is closed and no session is returned. -/
theorem connectTo_spec_witness :
    connectTo exampleEnv "tlsfail.example.com".toList =
      ⟨[.Dial "tlsfail.example.com:25".toList, .Extension 5 "STARTTLS".toList,
          .StartTLS 5 ⟨"tlsfail.example.com".toList⟩, .Close 5],
        some (none, some ⟨"handshake failure".toList⟩)⟩ :=
  (connectTo_spec exampleEnv "tlsfail.example.com".toList).2.2 ⟨5, ⟨[]⟩⟩
    ⟨"handshake failure".toList⟩ rfl (by decide) rfl

/-! ## C2: the loop over the exchangers -/

theorem connectTo_cases (env : Env) (hostname : GoString) :
    (∃ err, connectTo env hostname = ⟨[.Dial (hostname ++ ":25".toList)], some (none, some err)⟩) ∨
    (∃ c : Client, connectTo env hostname =
      ⟨[.Dial (hostname ++ ":25".toList), .Extension c.conn "STARTTLS".toList],
        some (some c, none)⟩) ∨
    (∃ (c : Client) (err : GoError), connectTo env hostname =
      ⟨[.Dial (hostname ++ ":25".toList), .Extension c.conn "STARTTLS".toList,
          .StartTLS c.conn ⟨hostname⟩, .Close c.conn],
        some (none, some err)⟩) ∨
    (∃ (c : Client) (state : ConnectionState), connectTo env hostname =
      ⟨[.Dial (hostname ++ ":25".toList), .Extension c.conn "STARTTLS".toList,
          .StartTLS c.conn ⟨hostname⟩],
        some (some (c.withTLS state), none)⟩) := by
  cases hd : env.Dial (hostname ++ ":25".toList) with
  | error err => exact Or.inl ⟨err, connectTo_dial_error env hostname err hd⟩
  | ok c =>
    cases hx : env.Extension c "STARTTLS".toList with
    | false => exact Or.inr (Or.inl ⟨c, connectTo_plain env hostname c hd hx⟩)
    | true =>
      cases ht : env.StartTLS c ⟨hostname⟩ with
      | error err =>
        exact Or.inr (Or.inr (Or.inl ⟨c, err, connectTo_tls_error env hostname c err hd hx ht⟩))
      | ok state =>
        exact Or.inr (Or.inr (Or.inr ⟨c, state, connectTo_tls_ok env hostname c state hd hx ht⟩))

theorem connectTo_returns (env : Env) (hostname : GoString) :
    ∃ client err, (connectTo env hostname).result = some (client, err) := by
  rcases connectTo_cases env hostname with ⟨e, h⟩ | ⟨c, h⟩ | ⟨c, e, h⟩ | ⟨c, s, h⟩ <;>
    exact ⟨_, _, by rw [h]⟩

theorem dialled_connectTo (env : Env) (hostname : GoString) :
    dialled (connectTo env hostname).trace = [hostname ++ ":25".toList] := by
  rcases connectTo_cases env hostname with ⟨e, h⟩ | ⟨c, h⟩ | ⟨c, e, h⟩ | ⟨c, s, h⟩ <;>
    rw [h] <;> rfl

theorem dialled_append (s t : List Event) : dialled (s ++ t) = dialled s ++ dialled t := by
  simp [dialled, List.filterMap_append]

theorem dialSMTP_cons_fail (env : Env) (mx : MX) (mxs : List MX)
    (h : connectFails env (mxToHostname mx) = true) :
    dialSMTP env (mx :: mxs) =
      ⟨(connectTo env (mxToHostname mx)).trace ++ (dialSMTP env mxs).trace,
        (dialSMTP env mxs).result⟩ := by
  obtain ⟨client, err, hres⟩ := connectTo_returns env (mxToHostname mx)
  have hc : client = none := by
    cases client with
    | none => rfl
    | some c => simp [connectFails, hres] at h
  subst hc
  rw [dialSMTP, run_bind_eq, run_bind_some _ _ _ hres]

theorem dialSMTP_cons_ok (env : Env) (mx : MX) (mxs : List MX) (c : Client)
    (h : connectSession env (mxToHostname mx) = some c) :
    dialSMTP env (mx :: mxs) = ⟨(connectTo env (mxToHostname mx)).trace, some (some c)⟩ := by
  obtain ⟨client, err, hres⟩ := connectTo_returns env (mxToHostname mx)
  have hc : client = some c := by
    simpa [connectSession, hres] using h
  subst hc
  rw [dialSMTP, run_bind_eq, run_bind_some _ _ _ hres]
  simp

theorem dialSMTP_all_fail (env : Env) (mxs : List MX)
    (h : ∀ mx ∈ mxs, connectFails env (mxToHostname mx) = true) :
    dialSMTP env mxs =
      ⟨mxs.flatMap fun mx => (connectTo env (mxToHostname mx)).trace, some none⟩ := by
  induction mxs with
  | nil => rfl
  | cons mx rest ih =>
    rw [dialSMTP_cons_fail env mx rest (h mx (List.mem_cons_self _ _)),
      ih fun x hx => h x (List.mem_cons_of_mem _ hx)]
    simp

theorem dialSMTP_first_ok (env : Env) (pre : List MX) (mx : MX) (post : List MX) (c : Client)
    (hpre : ∀ x ∈ pre, connectFails env (mxToHostname x) = true)
    (hmx : connectSession env (mxToHostname mx) = some c) :
    dialSMTP env (pre ++ mx :: post) =
      ⟨(pre ++ [mx]).flatMap fun x => (connectTo env (mxToHostname x)).trace,
        some (some c)⟩ := by
  induction pre with
  | nil =>
    rw [List.nil_append, dialSMTP_cons_ok env mx post c hmx]
    simp
  | cons x rest ih =>
    rw [List.cons_append, dialSMTP_cons_fail env x _ (hpre x (List.mem_cons_self _ _)),
      ih fun y hy => hpre y (List.mem_cons_of_mem _ hy)]
    simp

theorem dialled_flatMap_connectTo (env : Env) (mxs : List MX) :
    dialled (mxs.flatMap fun x => (connectTo env (mxToHostname x)).trace) =
      mxs.map fun x => mxToHostname x ++ ":25".toList := by
  induction mxs with
  | nil => rfl
  | cons x rest ih =>
    rw [List.flatMap_cons, dialled_append, dialled_connectTo, ih]
    rfl

theorem dialSMTP_none_imp (env : Env) (mxs : List MX)
    (h : (dialSMTP env mxs).result = some none) :
    ∀ mx ∈ mxs, connectFails env (mxToHostname mx) = true := by
  induction mxs with
  | nil => simp
  | cons mx rest ih =>
    cases hf : connectFails env (mxToHostname mx) with
    | true =>
      rw [dialSMTP_cons_fail env mx rest hf] at h
      intro x hx
      rcases List.mem_cons.1 hx with rfl | hx
      · exact hf
      · exact ih h x hx
    | false =>
      obtain ⟨client, err, hres⟩ := connectTo_returns env (mxToHostname mx)
      cases client with
      | none => simp [connectFails, hres] at hf
      | some c =>
        have hs : connectSession env (mxToHostname mx) = some c := by
          simp [connectSession, hres]
        rw [dialSMTP_cons_ok env mx rest c hs] at h
        simp at h

/-- C2. `dialSMTP` attempts the hosts in list order and stops at the first success: if the
list is `pre ++ mx :: post`, `connectTo` yields no session for every host of `pre` and the
session `c` for the host of `mx`, then the attempts made are exactly those on `pre` and on
`mx`, in that order (none on `post`), and `c` is returned.  If `connectTo` yields no session
for any host of the list, all of them are attempted, in order, and nil is returned; and nil
is returned only then (so also for the empty list).  With three hosts that yield no session
followed by one that yields `c`, the addresses dialled are those four, in order, and `c`
is returned. -/
theorem dialSMTP_spec (env : Env) :
    (∀ (pre : List MX) (mx : MX) (post : List MX) (c : Client),
      (∀ x ∈ pre, connectFails env (mxToHostname x) = true) →
      connectSession env (mxToHostname mx) = some c →
      (dialSMTP env (pre ++ mx :: post)).result = some (some c) ∧
      (dialSMTP env (pre ++ mx :: post)).trace =
        (pre ++ [mx]).flatMap (fun x => (connectTo env (mxToHostname x)).trace) ∧
      dialled (dialSMTP env (pre ++ mx :: post)).trace =
        (pre ++ [mx]).map (fun x => mxToHostname x ++ ":25".toList)) ∧
    (∀ mxs : List MX,
      (∀ x ∈ mxs, connectFails env (mxToHostname x) = true) →
      (dialSMTP env mxs).result = some none ∧
      (dialSMTP env mxs).trace =
        mxs.flatMap (fun x => (connectTo env (mxToHostname x)).trace) ∧
      dialled (dialSMTP env mxs).trace = mxs.map (fun x => mxToHostname x ++ ":25".toList)) ∧
    (∀ mxs : List MX,
      (dialSMTP env mxs).result = some none ↔
        ∀ x ∈ mxs, connectFails env (mxToHostname x) = true) ∧
    (dialSMTP env []).result = some none ∧
    (∀ (m₁ m₂ m₃ m₄ : MX) (c : Client),
      connectFails env (mxToHostname m₁) = true →
      connectFails env (mxToHostname m₂) = true →
      connectFails env (mxToHostname m₃) = true →
      connectSession env (mxToHostname m₄) = some c →
      (dialSMTP env [m₁, m₂, m₃, m₄]).result = some (some c) ∧
      dialled (dialSMTP env [m₁, m₂, m₃, m₄]).trace =
        [mxToHostname m₁ ++ ":25".toList, mxToHostname m₂ ++ ":25".toList,
          mxToHostname m₃ ++ ":25".toList, mxToHostname m₄ ++ ":25".toList]) := by
  refine ⟨?_, ?_, ?_, rfl, ?_⟩
  · intro pre mx post c hpre hmx
    rw [dialSMTP_first_ok env pre mx post c hpre hmx]
    exact ⟨rfl, rfl, dialled_flatMap_connectTo env _⟩
  · intro mxs h
    rw [dialSMTP_all_fail env mxs h]
    exact ⟨rfl, rfl, dialled_flatMap_connectTo env _⟩
  · intro mxs
    constructor
    · exact dialSMTP_none_imp env mxs
    · intro h
      rw [dialSMTP_all_fail env mxs h]
  · intro m₁ m₂ m₃ m₄ c h₁ h₂ h₃ h₄
    have hpre : ∀ x ∈ [m₁, m₂, m₃], connectFails env (mxToHostname x) = true := by
      intro x hx
      simp only [List.mem_cons, List.mem_singleton, List.not_mem_nil, or_false] at hx
      rcases hx with rfl | rfl | rfl <;> assumption
    have := dialSMTP_first_ok env [m₁, m₂, m₃] m₄ [] c hpre h₄
    simp only [List.cons_append, List.nil_append] at this
    rw [this]
    exact ⟨rfl, dialled_flatMap_connectTo env _⟩

/-- Witness for C2: three exchangers that refuse the connection, then one that accepts. -/
theorem dialSMTP_spec_witness :
    (dialSMTP exampleEnv exampleMXs).result = some (some ⟨4, ⟨[exampleCert]⟩⟩) ∧
    dialled (dialSMTP exampleEnv exampleMXs).trace =
      ["mx1.example.com:25".toList, "mx2.example.com:25".toList,
        "mx3.example.com:25".toList, "mx4.example.com:25".toList] :=
  (dialSMTP_spec exampleEnv).2.2.2.2 ⟨"mx1.example.com.".toList, 10⟩
    ⟨"mx2.example.com.".toList, 20⟩ ⟨"mx3.example.com.".toList, 30⟩
    ⟨"mx4.example.com.".toList, 40⟩ ⟨4, ⟨[exampleCert]⟩⟩
    (by decide) (by decide) (by decide) (by decide)

/-! ## Traces of the parts of `processMail` -/

theorem run_bind_forall {α β : Type} (P : Event → Prop) (m : Run α) (f : α → Run β)
    (hm : ∀ e ∈ m.trace, P e) (hf : ∀ a, ∀ e ∈ (f a).trace, P e) :
    ∀ e ∈ (Run.bind m f).trace, P e := by
  unfold Run.bind
  cases m.result with
  | none => exact hm
  | some a =>
    intro e he
    rcases List.mem_append.1 he with h | h
    · exact hm e h
    · exact hf a e h

theorem getMXForSender_trace (env : Env) (sender : Address) :
    ∀ e ∈ (getMXForSender env sender).trace, e.isQuit = false ∧ e.isTransaction = false ∧ e.isReport = false := by
  unfold getMXForSender
  split
  · simp
  · rename_i domain _
    cases LookupMX env domain <;> simp [Event.isQuit, Event.isTransaction, Event.isReport]

theorem getMXForSender_returns (env : Env) (sender : Address) :
    ∃ mxs err, (getMXForSender env sender).result = some (mxs, err) := by
  unfold getMXForSender
  split
  · exact ⟨_, _, rfl⟩
  · rename_i domain _
    cases LookupMX env domain <;> exact ⟨_, _, rfl⟩

theorem connectTo_trace (env : Env) (hostname : GoString) :
    ∀ e ∈ (connectTo env hostname).trace, e.isQuit = false ∧ e.isTransaction = false ∧ e.isReport = false := by
  rcases connectTo_cases env hostname with ⟨e, h⟩ | ⟨c, h⟩ | ⟨c, e, h⟩ | ⟨c, s, h⟩ <;>
    rw [h] <;> simp [Event.isQuit, Event.isTransaction, Event.isReport]

theorem dialSMTP_trace (env : Env) (mxs : List MX) :
    ∀ e ∈ (dialSMTP env mxs).trace, e.isQuit = false ∧ e.isTransaction = false ∧ e.isReport = false := by
  induction mxs with
  | nil => simp [dialSMTP]
  | cons mx rest ih =>
    rw [dialSMTP, run_bind_eq]
    apply run_bind_forall _ _ _ (connectTo_trace env _)
    rintro ⟨client, err⟩
    cases client with
    | none => exact ih
    | some c => simp

theorem dialSMTP_returns (env : Env) (mxs : List MX) :
    ∃ client, (dialSMTP env mxs).result = some client := by
  induction mxs with
  | nil => exact ⟨none, rfl⟩
  | cons mx rest ih =>
    cases hf : connectFails env (mxToHostname mx) with
    | true =>
      rw [dialSMTP_cons_fail env mx rest hf]
      exact ih
    | false =>
      obtain ⟨client, err, hres⟩ := connectTo_returns env (mxToHostname mx)
      cases client with
      | none => simp [connectFails, hres] at hf
      | some c =>
        have hs : connectSession env (mxToHostname mx) = some c := by
          simp [connectSession, hres]
        rw [dialSMTP_cons_ok env mx rest c hs]
        exact ⟨_, rfl⟩

theorem processDKIMResponse_trace (selector domain : GoString) (r : Msg) :
    ∀ e ∈ (processDKIMResponse selector domain r).trace,
      e.isQuit = false ∧ e.isTransaction = false ∧ e.isReport = false := by
  by_cases hr : r.Rcode = RcodeSuccess
  · cases hA : r.Answer with
    | nil =>
      obtain ⟨e, he⟩ := processDKIMResponse_empty selector domain r hr hA
      rw [he]; simp
    | cons a rest =>
      rw [processDKIMResponse_cons selector domain r hr a rest hA]
      by_cases hrest : rest = []
      · simp [hrest]
      · simp [hrest, Event.isQuit, Event.isTransaction, Event.isReport]
  · obtain ⟨e, he⟩ := processDKIMResponse_rcode selector domain r hr
    rw [he]; simp

theorem getDNSServerAddress_trace (env : Env) :
    (getDNSServerAddress env).trace = [.ClientConfigFromFile "/etc/resolv.conf".toList] := by
  unfold getDNSServerAddress
  rw [run_bind_eq, run_emit_bind]
  cases env.ClientConfigFromFile "/etc/resolv.conf".toList with
  | error err => rfl
  | ok conf =>
    cases hs : conf.Servers with
    | nil => simp [hs, goPanic]
    | cons s rest => simp [hs]

theorem lookupDKIM_trace (env : Env) (selector domain : GoString) :
    ∀ e ∈ (lookupDKIM env selector domain).trace,
      e.isQuit = false ∧ e.isTransaction = false ∧ e.isReport = false := by
  unfold lookupDKIM
  rw [run_bind_eq]
  apply run_bind_forall
  · rw [getDNSServerAddress_trace]
    simp [Event.isQuit, Event.isTransaction, Event.isReport]
  · rintro ⟨serv, err⟩
    cases err with
    | some err => simp
    | none =>
      simp only [run_bind_eq, run_emit_bind]
      cases env.Exchange (createDKIMQuery env selector domain) serv with
      | error err => simp [Event.isQuit, Event.isTransaction, Event.isReport]
      | ok r =>
        intro e he
        simp only [List.mem_cons] at he
        rcases he with rfl | he
        · simp [Event.isQuit, Event.isTransaction, Event.isReport]
        · exact processDKIMResponse_trace selector domain r e he

theorem getMessageDKIMKey_trace (env : Env) (rawMail : Bytes) :
    ∀ e ∈ (getMessageDKIMKey env rawMail).trace,
      e.isQuit = false ∧ e.isTransaction = false ∧ e.isReport = false := by
  unfold getMessageDKIMKey
  cases env.ReadMessage rawMail with
  | error err => simp
  | ok msg =>
    simp only
    split
    · simp
    · exact lookupDKIM_trace env _ _

theorem transmitMail_returns (env : Env) (c : Client) (from_ to_ : GoString) (mail : Bytes) :
    ∃ err, (transmitMail env c from_ to_ mail).result = some err := by
  unfold transmitMail
  simp only [run_bind_eq, run_emit_bind]
  cases env.Mail c from_ <;> cases env.Rcpt c to_ <;> cases env.Data c <;>
    cases env.Write c mail <;> simp

theorem transmitMail_trace (env : Env) (c : Client) (from_ to_ : GoString) (mail : Bytes) :
    ∀ e ∈ (transmitMail env c from_ to_ mail).trace, e.isQuit = false ∧ e.isReport = false := by
  unfold transmitMail
  simp only [run_bind_eq, run_emit_bind]
  cases env.Mail c from_ <;> cases env.Rcpt c to_ <;> cases env.Data c <;>
    cases env.Write c mail <;> simp [Event.isQuit, Event.isReport]

/-! ## C4 and C8: `processMail` -/

/-- The run of `processMail` once the MX lookup has succeeded, the DKIM lookup has
returned and `dialSMTP` has yielded the session `client`. -/
theorem processMail_session (env : Env) (debugArg : Bool) (rawMail : Bytes)
    (sender : Address) (config : Config) (mxs : List MX) (dkim : GoString)
    (err : Option GoError) (client : Client)
    (hmx : (getMXForSender env sender).result = some (mxs, none))
    (hk : (getMessageDKIMKey env rawMail).result = some (dkim, err))
    (hd : (dialSMTP env mxs).result = some (some client)) :
    processMail env debugArg rawMail sender config =
      ⟨(getMXForSender env sender).trace ++ (getMessageDKIMKey env rawMail).trace ++
          dkimWarning err ++ (dialSMTP env mxs).trace ++
          [Event.createResponse config
            ⟨sender, rawMail, mxs, dkim, client.TLSState.PeerCertificates⟩] ++
          (match env.createResponse config
              ⟨sender, rawMail, mxs, dkim, client.TLSState.PeerCertificates⟩ with
          | .error _ => [Event.Quit client.conn]
          | .ok response =>
            if debugArg then [Event.Quit client.conn, Event.Println response]
            else (transmitMail env client config.VerifyEmail sender.Address
                (toBytes response)).trace ++ [Event.Quit client.conn]),
       match env.createResponse config
           ⟨sender, rawMail, mxs, dkim, client.TLSState.PeerCertificates⟩ with
       | .error e => some (some e)
       | .ok response =>
         if debugArg then some none
         else (transmitMail env client config.VerifyEmail sender.Address
             (toBytes response)).result⟩ := by
  unfold processMail
  rw [run_bind_eq, run_bind_some _ _ _ hmx]
  simp only [run_bind_eq]
  rw [run_bind_some _ _ _ hk]
  simp only
  cases hcr : env.createResponse config
      ⟨sender, rawMail, mxs, dkim, client.TLSState.PeerCertificates⟩ with
  | error e =>
    cases err with
    | none => simp [run_bind_some _ _ _ hd, hcr, dkimWarning]
    | some e' => simp [run_bind_some _ _ _ hd, hcr, dkimWarning]
  | ok response =>
    obtain ⟨terr, hterr⟩ := transmitMail_returns env client config.VerifyEmail sender.Address
      (toBytes response)
    cases debugArg with
    | true =>
      cases err with
      | none => simp [run_bind_some _ _ _ hd, hcr, dkimWarning]
      | some e' => simp [run_bind_some _ _ _ hd, hcr, dkimWarning]
    | false =>
      cases err with
      | none =>
        simp [run_bind_some _ _ _ hd, hcr, run_bind_some _ _ _ hterr, dkimWarning]
        exact hterr.symm
      | some e' =>
        simp [run_bind_some _ _ _ hd, hcr, run_bind_some _ _ _ hterr, dkimWarning]
        exact hterr.symm

/-- The run of `processMail` once the MX lookup has succeeded, the DKIM lookup has
returned and `dialSMTP` has yielded no session. -/
theorem processMail_no_session (env : Env) (debugArg : Bool) (rawMail : Bytes)
    (sender : Address) (config : Config) (mxs : List MX) (dkim : GoString)
    (err : Option GoError)
    (hmx : (getMXForSender env sender).result = some (mxs, none))
    (hk : (getMessageDKIMKey env rawMail).result = some (dkim, err))
    (hd : (dialSMTP env mxs).result = some none) :
    (processMail env debugArg rawMail sender config).trace =
      (getMXForSender env sender).trace ++ (getMessageDKIMKey env rawMail).trace ++
        dkimWarning err ++ (dialSMTP env mxs).trace ∧
    ∃ e, (processMail env debugArg rawMail sender config).result = some (some e) := by
  unfold processMail
  rw [run_bind_eq, run_bind_some _ _ _ hmx]
  simp only [run_bind_eq]
  rw [run_bind_some _ _ _ hk]
  simp only
  cases err with
  | none => simp [run_bind_some _ _ _ hd, dkimWarning]
  | some e' => simp [run_bind_some _ _ _ hd, dkimWarning]

theorem getDNSServerAddress_error (env : Env) (e : GoError)
    (h : env.ClientConfigFromFile "/etc/resolv.conf".toList = .error e) :
    getDNSServerAddress env =
      ⟨[.ClientConfigFromFile "/etc/resolv.conf".toList],
        some ([], some ⟨"failed to load DNS config from /etc/resolv.conf: ".toList
          ++ e.Error⟩)⟩ := by
  simp only [getDNSServerAddress, h, run_bind_eq, run_emit_bind, run_pure_eq]

theorem getDNSServerAddress_no_server (env : Env) (conf : ClientConfig)
    (h : env.ClientConfigFromFile "/etc/resolv.conf".toList = .ok conf)
    (hs : conf.Servers = []) :
    getDNSServerAddress env = ⟨[.ClientConfigFromFile "/etc/resolv.conf".toList], none⟩ := by
  simp only [getDNSServerAddress, h, hs, run_bind_eq, run_emit_bind, goPanic]

theorem getDNSServerAddress_ok (env : Env) (conf : ClientConfig) (server : GoString)
    (rest : List GoString)
    (h : env.ClientConfigFromFile "/etc/resolv.conf".toList = .ok conf)
    (hs : conf.Servers = server :: rest) :
    getDNSServerAddress env =
      ⟨[.ClientConfigFromFile "/etc/resolv.conf".toList],
        some (JoinHostPort server conf.Port, none)⟩ := by
  simp only [getDNSServerAddress, h, hs, run_bind_eq, run_emit_bind, run_pure_eq]

theorem lookupDKIM_config_error (env : Env) (selector domain : GoString) (e : GoError)
    (h : env.ClientConfigFromFile "/etc/resolv.conf".toList = .error e) :
    (lookupDKIM env selector domain).result =
      some ([], some ⟨"failed to load DNS config from /etc/resolv.conf: ".toList
        ++ e.Error⟩) := by
  simp [lookupDKIM, getDNSServerAddress_error env e h]

theorem lookupDKIM_exchange_error (env : Env) (selector domain : GoString)
    (conf : ClientConfig) (server : GoString) (rest : List GoString) (e : GoError)
    (h : env.ClientConfigFromFile "/etc/resolv.conf".toList = .ok conf)
    (hs : conf.Servers = server :: rest)
    (hx : env.Exchange (createDKIMQuery env selector domain) (JoinHostPort server conf.Port)
      = .error e) :
    (lookupDKIM env selector domain).result =
      some ([], some ⟨"failed TXT lookup s=".toList ++ selector ++ " d=".toList ++ domain
        ++ ": ".toList ++ e.Error⟩) := by
  simp only [lookupDKIM, getDNSServerAddress_ok env conf server rest h hs, run_bind_eq,
    run_bind_mk_some, run_emit_bind, hx, run_pure_eq]

theorem lookupDKIM_exchange_ok (env : Env) (selector domain : GoString)
    (conf : ClientConfig) (server : GoString) (rest : List GoString) (r : Msg)
    (h : env.ClientConfigFromFile "/etc/resolv.conf".toList = .ok conf)
    (hs : conf.Servers = server :: rest)
    (hx : env.Exchange (createDKIMQuery env selector domain) (JoinHostPort server conf.Port)
      = .ok r) :
    (lookupDKIM env selector domain).result =
      (processDKIMResponse selector domain r).result := by
  simp only [lookupDKIM, getDNSServerAddress_ok env conf server rest h hs, run_bind_eq,
    run_bind_mk_some, run_emit_bind, hx, run_pure_eq]

theorem lookupDKIM_error_key (env : Env) (selector domain key : GoString) (err : GoError)
    (h : (lookupDKIM env selector domain).result = some (key, some err)) : key = [] := by
  cases hc : env.ClientConfigFromFile "/etc/resolv.conf".toList with
  | error e =>
    rw [lookupDKIM_config_error env selector domain e hc] at h
    simp only [Option.some.injEq, Prod.mk.injEq] at h
    exact h.1.symm
  | ok conf =>
    cases hs : conf.Servers with
    | nil =>
      simp [lookupDKIM, getDNSServerAddress_no_server env conf hc hs] at h
    | cons server rest =>
      cases hx : env.Exchange (createDKIMQuery env selector domain)
          (JoinHostPort server conf.Port) with
      | error e =>
        rw [lookupDKIM_exchange_error env selector domain conf server rest e hc hs hx] at h
        simp only [Option.some.injEq, Prod.mk.injEq] at h
        exact h.1.symm
      | ok r =>
        rw [lookupDKIM_exchange_ok env selector domain conf server rest r hc hs hx] at h
        exact processDKIMResponse_error_key selector domain key r err h

theorem getMessageDKIMKey_parse_error (env : Env) (rawMail : Bytes) (e : GoError)
    (h : env.ReadMessage rawMail = .error e) :
    getMessageDKIMKey env rawMail =
      ⟨[], some ([], some
        ⟨"Could not extract DKIM selector because mail could not be parsed: ".toList
          ++ e.Error⟩)⟩ := by
  simp only [getMessageDKIMKey, h, run_pure_eq]

theorem getMessageDKIMKey_lookup (env : Env) (rawMail : Bytes) (msg : Message)
    (h : env.ReadMessage rawMail = .ok msg)
    (hp : getDKIMParams msg ≠ none)
    (hsel : indexNil (getDKIMParams msg) "s".toList ≠ [])
    (hdom : indexNil (getDKIMParams msg) "d".toList ≠ []) :
    getMessageDKIMKey env rawMail =
      lookupDKIM env (indexNil (getDKIMParams msg) "s".toList)
        (indexNil (getDKIMParams msg) "d".toList) := by
  simp only [getMessageDKIMKey, h]
  rw [if_neg (not_or.2 ⟨hp, not_or.2 ⟨hsel, hdom⟩⟩)]

theorem getMessageDKIMKey_error_key (env : Env) (rawMail : Bytes) (key : GoString)
    (err : GoError) (h : (getMessageDKIMKey env rawMail).result = some (key, some err)) :
    key = [] := by
  cases hm : env.ReadMessage rawMail with
  | error e =>
    rw [getMessageDKIMKey_parse_error env rawMail e hm] at h
    simp only [Option.some.injEq, Prod.mk.injEq] at h
    exact h.1.symm
  | ok msg =>
    by_cases hc : getDKIMParams msg = none ∨ indexNil (getDKIMParams msg) "s".toList = [] ∨
        indexNil (getDKIMParams msg) "d".toList = []
    · simp only [getMessageDKIMKey, hm] at h
      rw [if_pos hc] at h
      simp at h
    · simp only [not_or] at hc
      rw [getMessageDKIMKey_lookup env rawMail msg hm hc.1 hc.2.1 hc.2.2] at h
      exact lookupDKIM_error_key env _ _ key err h

theorem filter_isQuit_eq_nil (l : List Event) (h : ∀ e ∈ l, e.isQuit = false) :
    l.filter Event.isQuit = [] := by
  rw [List.filter_eq_nil_iff]
  intro e he
  simp [h e he]

theorem dkimWarning_trace (err : Option GoError) :
    ∀ e ∈ dkimWarning err,
      e.isQuit = false ∧ e.isTransaction = false ∧ e.isReport = false := by
  cases err <;> simp [dkimWarning, Event.isQuit, Event.isTransaction, Event.isReport]

theorem processMail_prefix_trace (env : Env) (rawMail : Bytes) (sender : Address)
    (mxs : List MX) (err : Option GoError) :
    ∀ e ∈ (getMXForSender env sender).trace ++ (getMessageDKIMKey env rawMail).trace ++
        dkimWarning err ++ (dialSMTP env mxs).trace,
      e.isQuit = false ∧ e.isTransaction = false ∧ e.isReport = false := by
  intro e he
  simp only [List.mem_append] at he
  rcases he with ((h | h) | h) | h
  · exact getMXForSender_trace env sender e h
  · exact getMessageDKIMKey_trace env rawMail e h
  · exact dkimWarning_trace err e h
  · exact dialSMTP_trace env mxs e h

/-- C4. In every run of `processMail` in which the MX lookup succeeds, the DKIM lookup
returns and `dialSMTP` yields the session `client`, `processMail` returns; its trace
contains exactly one `Quit`, the one of `client`; nothing but the `Println` of debug mode
follows that `Quit`; and in debug mode the trace contains no mail-transaction command.
The run is arbitrary, so this covers a failing report generator, debug mode, and a failing
or succeeding transmission. -/
theorem processMail_quit_once (env : Env) (debugArg : Bool) (rawMail : Bytes)
    (sender : Address) (config : Config) (mxs : List MX) (client : Client)
    (hmx : (getMXForSender env sender).result = some (mxs, none))
    (hk : (getMessageDKIMKey env rawMail).result ≠ none)
    (hd : (dialSMTP env mxs).result = some (some client)) :
    (∃ err, (processMail env debugArg rawMail sender config).result = some err) ∧
    (processMail env debugArg rawMail sender config).trace.filter Event.isQuit
      = [.Quit client.conn] ∧
    (∃ before after,
      (processMail env debugArg rawMail sender config).trace
        = before ++ Event.Quit client.conn :: after ∧
      (∀ e ∈ before, e.isQuit = false) ∧
      (after = [] ∨ ∃ response, debugArg = true ∧ after = [.Println response])) ∧
    (debugArg = true →
      ∀ e ∈ (processMail env debugArg rawMail sender config).trace,
        e.isTransaction = false) := by
  obtain ⟨⟨dkim, err⟩, hk⟩ := Option.ne_none_iff_exists'.1 hk
  rw [processMail_session env debugArg rawMail sender config mxs dkim err client hmx hk hd]
  have hpre : ∀ e ∈ (getMXForSender env sender).trace ++
      (getMessageDKIMKey env rawMail).trace ++ dkimWarning err ++ (dialSMTP env mxs).trace ++
      [Event.createResponse config
        ⟨sender, rawMail, mxs, dkim, client.TLSState.PeerCertificates⟩],
      e.isQuit = false ∧ e.isTransaction = false := by
    intro e he
    rcases List.mem_append.1 he with h | h
    · have := processMail_prefix_trace env rawMail sender mxs err e h
      exact ⟨this.1, this.2.1⟩
    · simp only [List.mem_singleton] at h
      subst h
      exact ⟨rfl, rfl⟩
  simp only
  generalize (getMXForSender env sender).trace ++
      (getMessageDKIMKey env rawMail).trace ++ dkimWarning err ++ (dialSMTP env mxs).trace ++
      [Event.createResponse config
        ⟨sender, rawMail, mxs, dkim, client.TLSState.PeerCertificates⟩] = pre at hpre ⊢
  have hpreQ : pre.filter Event.isQuit = [] :=
    filter_isQuit_eq_nil pre fun e he => (hpre e he).1
  cases hcr : env.createResponse config
      ⟨sender, rawMail, mxs, dkim, client.TLSState.PeerCertificates⟩ with
  | error e =>
    refine ⟨⟨_, rfl⟩, ?_, ⟨pre, [], rfl, fun e he => (hpre e he).1, Or.inl rfl⟩, ?_⟩
    · simp [List.filter_append, hpreQ, Event.isQuit]
    · intro _ e he
      rcases List.mem_append.1 he with h | h
      · exact (hpre e h).2
      · simp only [List.mem_singleton] at h
        subst h
        rfl
  | ok response =>
    cases debugArg with
    | true =>
      refine ⟨⟨_, rfl⟩, ?_,
        ⟨pre, [.Println response], rfl, fun e he => (hpre e he).1,
          Or.inr ⟨response, rfl, rfl⟩⟩, ?_⟩
      · simp [List.filter_append, hpreQ, Event.isQuit]
      · intro _ e he
        rcases List.mem_append.1 he with h | h
        · exact (hpre e h).2
        · simp only [Bool.true_eq_false, if_true, List.mem_cons, List.mem_singleton,
            List.not_mem_nil, or_false] at h
          rcases h with rfl | rfl <;> rfl
    | false =>
      obtain ⟨terr, hterr⟩ := transmitMail_returns env client config.VerifyEmail
        sender.Address (toBytes response)
      have hT := transmitMail_trace env client config.VerifyEmail sender.Address
        (toBytes response)
      have hTQ := filter_isQuit_eq_nil _ fun e he => (hT e he).1
      refine ⟨⟨terr, by simpa using hterr⟩, ?_, ⟨pre ++ (transmitMail env client
        config.VerifyEmail sender.Address (toBytes response)).trace, [], by simp, ?_,
        Or.inl rfl⟩, by simp⟩
      · simp [List.filter_append, hpreQ, hTQ, Event.isQuit]
      · intro e he
        rcases List.mem_append.1 he with h | h
        · exact (hpre e h).1
        · exact (hT e h).1

/-- Witness for C4: `alice@example.com`, three exchangers that refuse and one that accepts
with TLS, a message that does not parse, a successful report and transmission. -/
theorem processMail_quit_once_witness :
    (∃ err, (processMail exampleEnv false [] alice exampleConfig).result = some err) ∧
    (processMail exampleEnv false [] alice exampleConfig).trace.filter Event.isQuit
      = [.Quit 4] ∧
    (∃ before after,
      (processMail exampleEnv false [] alice exampleConfig).trace
        = before ++ Event.Quit 4 :: after ∧
      (∀ e ∈ before, e.isQuit = false) ∧
      (after = [] ∨ ∃ response, false = true ∧ after = [.Println response])) ∧
    (false = true →
      ∀ e ∈ (processMail exampleEnv false [] alice exampleConfig).trace,
        e.isTransaction = false) :=
  processMail_quit_once exampleEnv false [] alice exampleConfig exampleMXs
    ⟨4, ⟨[exampleCert]⟩⟩ (by decide) (by decide) (by decide)

/-- After a successful MX lookup: (1) each of these failures of the DKIM lookup (the
message does not parse; the resolver configuration cannot be read; with a server named in
the resolver configuration, the DNS exchange fails or the response has a code other than
`RcodeSuccess`, an empty answer section or a first answer that is not TXT) makes
`getMessageDKIMKey` return a non-nil error with an empty key; (2) whenever
`getMessageDKIMKey` returns a non-nil error, the key it returns is empty, `processMail`
logs the warning and goes on to `dialSMTP`, the report generator is called with an empty
`dkimkey` when `dialSMTP` yields a session, and no call of the report generator in the run
has a non-empty `dkimkey`.  The case of a resolver configuration without a server is
`processMail_no_nameserver`. -/
theorem processMail_dkim_failure (env : Env) (debugArg : Bool) (rawMail : Bytes)
    (sender : Address) (config : Config) (mxs : List MX)
    (hmx : (getMXForSender env sender).result = some (mxs, none)) :
    (∀ e, env.ReadMessage rawMail = .error e →
      ∃ err, (getMessageDKIMKey env rawMail).result = some ([], some err)) ∧
    (∀ msg, env.ReadMessage rawMail = .ok msg →
      getDKIMParams msg ≠ none →
      indexNil (getDKIMParams msg) "s".toList ≠ [] →
      indexNil (getDKIMParams msg) "d".toList ≠ [] →
      (∀ e, env.ClientConfigFromFile "/etc/resolv.conf".toList = .error e →
        ∃ err, (getMessageDKIMKey env rawMail).result = some ([], some err)) ∧
      (∀ conf server rest,
        env.ClientConfigFromFile "/etc/resolv.conf".toList = .ok conf →
        conf.Servers = server :: rest →
        (∀ e,
          env.Exchange
              (createDKIMQuery env (indexNil (getDKIMParams msg) "s".toList)
                (indexNil (getDKIMParams msg) "d".toList))
              (JoinHostPort server conf.Port) = .error e →
          ∃ err, (getMessageDKIMKey env rawMail).result = some ([], some err)) ∧
        (∀ r,
          env.Exchange
              (createDKIMQuery env (indexNil (getDKIMParams msg) "s".toList)
                (indexNil (getDKIMParams msg) "d".toList))
              (JoinHostPort server conf.Port) = .ok r →
          (r.Rcode ≠ RcodeSuccess ∨ r.Answer = [] ∨
            ∃ a more, r.Answer = a :: more ∧ ∀ txt, a ≠ RR.TXT txt) →
          ∃ err, (getMessageDKIMKey env rawMail).result = some ([], some err)))) ∧
    (∀ dkim err, (getMessageDKIMKey env rawMail).result = some (dkim, some err) →
      dkim = [] ∧
      (∃ rest,
        (processMail env debugArg rawMail sender config).trace =
          (getMXForSender env sender).trace ++ (getMessageDKIMKey env rawMail).trace ++
            [Event.Warning ("DKIM: ".toList ++ err.Error)] ++ (dialSMTP env mxs).trace ++ rest) ∧
      (∀ client, (dialSMTP env mxs).result = some (some client) →
        Event.createResponse config
            ⟨sender, rawMail, mxs, [], client.TLSState.PeerCertificates⟩
          ∈ (processMail env debugArg rawMail sender config).trace) ∧
      (∀ cfg data,
        Event.createResponse cfg data ∈ (processMail env debugArg rawMail sender config).trace →
        data.dkimkey = [])) := by
  refine ⟨?_, ?_, ?_⟩
  · intro e he
    rw [getMessageDKIMKey_parse_error env rawMail e he]
    exact ⟨_, rfl⟩
  · intro msg hm hp hsel hdom
    rw [getMessageDKIMKey_lookup env rawMail msg hm hp hsel hdom]
    refine ⟨?_, ?_⟩
    · intro e he
      rw [lookupDKIM_config_error env _ _ e he]
      exact ⟨_, rfl⟩
    · intro conf server rest hc hs
      refine ⟨?_, ?_⟩
      · intro e he
        rw [lookupDKIM_exchange_error env _ _ conf server rest e hc hs he]
        exact ⟨_, rfl⟩
      · intro r hr hshape
        rw [lookupDKIM_exchange_ok env _ _ conf server rest r hc hs hr]
        exact processDKIMResponse_shape_error _ _ r hshape
  · intro dkim err hk
    have hkey : dkim = [] := getMessageDKIMKey_error_key env rawMail dkim err hk
    subst hkey
    refine ⟨rfl, ?_⟩
    have hpre := processMail_prefix_trace env rawMail sender mxs (some err)
    obtain ⟨client, hd⟩ := dialSMTP_returns env mxs
    cases client with
    | none =>
      obtain ⟨htr, _⟩ := processMail_no_session env debugArg rawMail sender config mxs []
        (some err) hmx hk hd
      rw [htr]
      refine ⟨⟨[], by simp [dkimWarning]⟩, ?_, ?_⟩
      · intro client hc
        rw [hd] at hc
        simp at hc
      · intro cfg data hmem
        have := (hpre _ hmem).2.2
        simp [Event.isReport] at this
    | some client =>
      rw [processMail_session env debugArg rawMail sender config mxs [] (some err) client
        hmx hk hd]
      simp only
      refine ⟨⟨_, by simp only [dkimWarning, List.append_assoc]; rfl⟩, ?_, ?_⟩
      · intro c hc
        rw [hd] at hc
        simp only [Option.some.injEq] at hc
        subst hc
        simp
      · intro cfg data hmem
        rcases List.mem_append.1 hmem with h | h
        · rcases List.mem_append.1 h with h | h
          · have := (hpre _ h).2.2
            simp [Event.isReport] at this
          · simp only [List.mem_singleton, Event.createResponse.injEq] at h
            rw [h.2]
        · cases hcr : env.createResponse config
              ⟨sender, rawMail, mxs, [], client.TLSState.PeerCertificates⟩ with
          | error e =>
            rw [hcr] at h
            simp at h
          | ok response =>
            rw [hcr] at h
            cases debugArg with
            | true => simp at h
            | false =>
              simp only [Bool.false_eq_true, if_false, List.mem_append,
                List.mem_singleton] at h
              rcases h with h | h
              · have := (transmitMail_trace env client config.VerifyEmail sender.Address
                  (toBytes response) _ h).2
                simp [Event.isReport] at this
              · simp at h

/-- An instance of `processMail_dkim_failure`: the message of `alice@example.com` does
not parse; the pipeline goes on and hands the report generator an empty DKIM key. -/
theorem processMail_dkim_failure_witness :
    (getMessageDKIMKey exampleEnv []).result =
      some ([], some ⟨("Could not extract DKIM selector because mail could not be parsed: "
        ++ "malformed MIME header line").toList⟩) ∧
    Event.createResponse exampleConfig ⟨alice, [], exampleMXs, [], [exampleCert]⟩
      ∈ (processMail exampleEnv false [] alice exampleConfig).trace :=
  ⟨by decide,
    ((processMail_dkim_failure exampleEnv false [] alice exampleConfig exampleMXs
      (by decide)).2.2 [] ⟨("Could not extract DKIM selector because mail could not be "
        ++ "parsed: malformed MIME header line").toList⟩ (by decide)).2.2.1
      ⟨4, ⟨[exampleCert]⟩⟩ (by decide)⟩

/-! ## C8: a resolver configuration without a server -/

/-- When the MX lookup has succeeded, the message carries a DKIM signature with selector
and domain, and the resolver configuration is read without error but names no server,
`conf.Servers[0]` panics: `processMail` does not return, and its trace ends with the read
of the resolver configuration, before any connection attempt. -/
theorem processMail_no_nameserver (env : Env) (debugArg : Bool) (rawMail : Bytes)
    (sender : Address) (config : Config) (mxs : List MX) (msg : Message)
    (conf : ClientConfig)
    (hmx : (getMXForSender env sender).result = some (mxs, none))
    (hm : env.ReadMessage rawMail = .ok msg)
    (hp : getDKIMParams msg ≠ none)
    (hsel : indexNil (getDKIMParams msg) "s".toList ≠ [])
    (hdom : indexNil (getDKIMParams msg) "d".toList ≠ [])
    (hc : env.ClientConfigFromFile "/etc/resolv.conf".toList = .ok conf)
    (hs : conf.Servers = []) :
    processMail env debugArg rawMail sender config =
      ⟨(getMXForSender env sender).trace ++
        [.ClientConfigFromFile "/etc/resolv.conf".toList], none⟩ := by
  have hk : getMessageDKIMKey env rawMail =
      ⟨[.ClientConfigFromFile "/etc/resolv.conf".toList], none⟩ := by
    rw [getMessageDKIMKey_lookup env rawMail msg hm hp hsel hdom]
    simp only [lookupDKIM, getDNSServerAddress_no_server env conf hc hs, run_bind_eq,
      run_bind_mk_none]
  unfold processMail
  rw [run_bind_eq, run_bind_some _ _ _ hmx]
  simp only [run_bind_eq, hk, run_bind_mk_none]

/-- C8 fails on the code.  For `alice@example.com`, whose MX lookup succeeds, a message
signed with selector `sel1` and domain `example.com`, and a resolver file that is read
without error but names no server, the DKIM lookup does not return an error: it panics at
`conf.Servers[0]`.  `processMail` does not return either; its trace is the MX lookup and
the read of the resolver file, so that no host is dialled and the report generator is
never called. -/
theorem processMail_panics_without_nameserver :
    (getMXForSender noServerEnv alice).result = some (exampleMXs, none) ∧
    noServerEnv.ReadMessage [] = .ok signedMessage ∧
    noServerEnv.ClientConfigFromFile "/etc/resolv.conf".toList = .ok ⟨[], "53".toList⟩ ∧
    (getMessageDKIMKey noServerEnv []).result = none ∧
    (processMail noServerEnv false [] alice exampleConfig).result = none ∧
    (processMail noServerEnv false [] alice exampleConfig).trace =
      [.LookupMX "example.com".toList, .ClientConfigFromFile "/etc/resolv.conf".toList] ∧
    dialled (processMail noServerEnv false [] alice exampleConfig).trace = [] := by
  refine ⟨by decide, rfl, rfl, by decide, by decide, by decide, by decide⟩

/-- An instance of `processMail_no_nameserver` on `noServerEnv`. -/
theorem processMail_no_nameserver_example :
    processMail noServerEnv true [] alice exampleConfig =
      ⟨(getMXForSender noServerEnv alice).trace ++
        [.ClientConfigFromFile "/etc/resolv.conf".toList], none⟩ :=
  processMail_no_nameserver noServerEnv true [] alice exampleConfig exampleMXs signedMessage
    ⟨[], "53".toList⟩ (by decide) rfl (by decide) (by decide) (by decide) rfl rfl


end NymsVerifier
